import Mathlib

/-!
Verification of the IoT SIM platform backend core: a shallow embedding of
the carrier-API client (`app/clients/once_client.py`), the SIM service
(`app/services/sim_service.py`), the background jobs
(`app/tasks/sync_jobs.py`) and the validators (`app/utils/validators.py`),
together with theorems settling the specified behavioural claims.

Machine integers are modelled as `Nat`/`Int` (no arithmetic here comes near
an overflow boundary), timestamps as seconds (`Int`), and fallible Python
code as `Except`-valued functions.  The async session factory of the code
base is configured with `autoflush=False`, so a `select` issued during a
sync run does not see rows that were `add`ed but not yet committed; the
service models below keep a separate `pending` list to reflect that.
-/

namespace SimPlatform

/-! ## Validators (`app/utils/validators.py`) -/

/-- Characters accepted by the Python predicate `str.isdigit` beyond the
ASCII decimal digits.  Python accepts every character with Unicode
property Numeric_Type = Digit or Decimal; this model lists the superscript
digits U+00B9, U+00B2, U+00B3 and U+2070..U+2079 as faithful
representatives of the non-decimal part of that set. -/
def pyExtraDigitChars : List Char :=
  ['¹', '²', '³', '⁰', '⁴', '⁵', '⁶', '⁷', '⁸', '⁹']

/-- One character of Python `str.isdigit`: ASCII decimal digit or one of
the further Unicode digit characters modelled in `pyExtraDigitChars`. -/
def pyIsDigitChar (c : Char) : Bool :=
  c.isDigit || pyExtraDigitChars.contains c

/-- Python `s.isdigit()`: non-empty and every character is a digit
character. -/
def pyStrIsDigit (s : String) : Bool :=
  decide (s.length ≥ 1) && s.data.all pyIsDigitChar

/-- Python `iccid.replace(" ", "").replace("-", "")`: removing every space
and dash, expressed on the character list so that the kernel can evaluate
it. -/
def stripSpacesDashes (s : String) : String :=
  String.mk (s.data.filter (fun c => !(c == ' ' || c == '-')))

/-- `validate_iccid` from `app/utils/validators.py`: empty strings are
rejected, spaces and dashes are removed, then the remainder must be 19 to
20 characters long and satisfy `str.isdigit`. -/
def validate_iccid (iccid : String) : Bool :=
  if iccid = "" then false
  else
    let t := stripSpacesDashes iccid
    if !(decide (19 ≤ t.length) && decide (t.length ≤ 20)) || !(pyStrIsDigit t) then
      false
    else
      true

example : validate_iccid "8991101200003204514" = true := by decide
example : validate_iccid "89911 0120-0003204514" = true := by decide
example : validate_iccid "123" = false := by decide
example : validate_iccid "" = false := by decide
example : validate_iccid "ABC1234567890123456" = false := by decide

/-! ## Data model (`app/models/sim.py`)

Rows are modelled with the columns the claims touch.  The DB-managed
`created_at`/`updated_at` mixin columns are omitted (no claim mentions
them), the JSONB `metadata` payload is carried as an opaque optional
string, and the surrogate `id` of `sim_usage` rows is omitted (no claim
depends on it).  `sims.iccid` carries a UNIQUE constraint in the schema;
the commit model below enforces it. -/

structure SIM where
  id : Nat
  iccid : String
  imsi : Option String
  msisdn : Option String
  status : Option String
  label : Option String
  ip_address : Option String
  imei : Option String
  organization_id : Option Nat
  last_synced_at : Option Int
  metadata : Option String
deriving Repr, DecidableEq

structure SIMUsageRow where
  sim_id : Nat
  iccid : String
  timestamp : Int
  volume_rx : Int
  volume_tx : Int
  total_volume : Int
  sms_mo : Int
  sms_mt : Int
deriving Repr, DecidableEq

structure SIMEventRow where
  sim_id : Nat
  iccid : String
  event_type : String
  timestamp : Int
deriving Repr, DecidableEq

/-- The relational store, restricted to the tables the claims touch.
`nextSimId` models the autoincrementing primary key of `sims`. -/
structure Db where
  sims : List SIM
  usage : List SIMUsageRow
  events : List SIMEventRow
  nextSimId : Nat
deriving Repr, DecidableEq

/-- Python exceptions surfaced by the service layer: `ValueError` (ICCID
format, or duplicate creation), SQLAlchemy `MultipleResultsFound` from
`scalar_one_or_none`, `IntegrityError` from committing a UNIQUE-constraint
violation, and errors propagated from the carrier client. -/
inductive SvcError
  | valueError
  | multipleResults
  | integrityError
  | onceError
deriving Repr, DecidableEq

/-! ## SIM service (`app/services/sim_service.py`) -/

/-- `SIMService.get_sim_by_iccid`: raises `ValueError` on a malformed
ICCID, otherwise `select ... where SIM.iccid == iccid` followed by
`scalar_one_or_none` (which raises if more than one row matches). -/
def getSimByIccid (db : Db) (iccid : String) : Except SvcError (Option SIM) :=
  if validate_iccid iccid = false then .error .valueError
  else
    match db.sims.filter (fun s => s.iccid == iccid) with
    | [] => .ok none
    | [s] => .ok (some s)
    | _ => .error .multipleResults

/-- Payload of `SIMCreate` (`app/schemas/sim.py`) as consumed by
`create_sim`. -/
structure SIMCreate where
  iccid : String
  imsi : Option String
  msisdn : Option String
  label : Option String
  organization_id : Option Nat
  metadata : Option String
deriving Repr, DecidableEq

/-- `SIMService.create_sim`: validates the ICCID (`ValueError`), rejects an
existing ICCID (also a `ValueError` in Python), then inserts and commits
one row. -/
def createSim (db : Db) (c : SIMCreate) : Except SvcError (Db × SIM) :=
  if validate_iccid c.iccid = false then .error .valueError
  else
    match getSimByIccid db c.iccid with
    | .error e => .error e
    | .ok (some _) => .error .valueError
    | .ok none =>
      let s : SIM :=
        { id := db.nextSimId, iccid := c.iccid, imsi := c.imsi,
          msisdn := c.msisdn, status := none, label := c.label,
          ip_address := none, imei := none,
          organization_id := c.organization_id, last_synced_at := none,
          metadata := c.metadata }
      .ok ({ db with sims := db.sims ++ [s], nextSimId := db.nextSimId + 1 }, s)

/-- Payload of `SIMUpdate` as consumed by `update_sim`. -/
structure SIMUpdate where
  label : Option String
  metadata : Option String
deriving Repr, DecidableEq

/-- `SIMService.update_sim`: looks the SIM up via `get_sim_by_iccid`
(propagating its `ValueError`), returns `none` when absent, otherwise
overwrites the non-`None` fields of the update payload and commits. -/
def updateSim (db : Db) (iccid : String) (u : SIMUpdate) :
    Except SvcError (Db × Option SIM) :=
  match getSimByIccid db iccid with
  | .error e => .error e
  | .ok none => .ok (db, none)
  | .ok (some s) =>
    let s1 := match u.label with
      | some l => { s with label := some l }
      | none => s
    let s2 := match u.metadata with
      | some m => { s1 with metadata := some m }
      | none => s1
    .ok ({ db with sims := db.sims.map (fun r => if r.iccid == iccid then s2 else r) },
         some s2)

/-- Equality on `Except` values is decidable when it is on both
components; lets concrete service results be checked by `decide`. -/
instance {ε α : Type} [DecidableEq ε] [DecidableEq α] :
    DecidableEq (Except ε α) := fun x y =>
  match x, y with
  | .ok a, .ok b =>
    if h : a = b then .isTrue (by rw [h])
    else .isFalse (fun hc => h (Except.ok.inj hc))
  | .error e, .error f =>
    if h : e = f then .isTrue (by rw [h])
    else .isFalse (fun hc => h (Except.error.inj hc))
  | .ok _, .error _ => .isFalse (fun hc => Except.noConfusion hc)
  | .error _, .ok _ => .isFalse (fun hc => Except.noConfusion hc)

/-! ## Helper lemmas on key-unique lists -/

/-- In a list whose keys are pairwise distinct, at most one element
matches any given key. -/
theorem length_filter_key_le_one {α β : Type} [DecidableEq β] (key : α → β)
    (l : List α) (b : β) (h : (l.map key).Nodup) :
    (l.filter (fun x => key x == b)).length ≤ 1 := by
  induction l with
  | nil => simp
  | cons a t ih =>
    simp only [List.map_cons, List.nodup_cons] at h
    by_cases ha : key a = b
    · have ht : t.filter (fun x => key x == b) = [] := by
        apply List.filter_eq_nil_iff.mpr
        intro x hx hxb
        have hkx : key x = b := by simpa using hxb
        exact h.1 (by rw [ha, ← hkx]; exact List.mem_map_of_mem key hx)
      simp [List.filter_cons, ha, ht]
    · simpa [List.filter_cons, ha] using ih h.2

/-- A filtered key-unique list is empty or a singleton, and in either case
it is its own `head?`-selection. -/
theorem filter_key_cases {α β : Type} [DecidableEq β] (key : α → β)
    (l : List α) (b : β) (h : (l.map key).Nodup) :
    l.filter (fun x => key x == b) = [] ∨
      ∃ s, l.filter (fun x => key x == b) = [s] := by
  have := length_filter_key_le_one key l b h
  match hf : l.filter (fun x => key x == b) with
  | [] => exact Or.inl rfl
  | [s] => exact Or.inr ⟨s, rfl⟩
  | s :: s2 :: t => rw [hf] at this; simp at this

/-- C10 counterexample.  The claim states that `get_sim_by_iccid` raises
`ValueError` exactly when the cleaned ICCID is not a string of 19-20
decimal digits.  Python's `str.isdigit` also accepts non-decimal Unicode
digit characters such as the superscript two (U+00B2), so a string of 19
superscript twos, none of which is a decimal digit, passes validation and
the service returns without raising. -/
theorem sim_iccid_superscript_counterexample :
    (String.mk (List.replicate 19 '²')).length = 19 ∧
    (∀ c ∈ (String.mk (List.replicate 19 '²')).data, ¬('0' ≤ c ∧ c ≤ '9')) ∧
    validate_iccid (String.mk (List.replicate 19 '²')) = true ∧
    getSimByIccid ⟨[], [], [], 1⟩ (String.mk (List.replicate 19 '²')) = .ok none := by
  refine ⟨by decide, by decide, by decide, by decide⟩

/-- `validate_iccid` unfolded to its acceptance condition. -/
theorem validate_iccid_eq_true_iff (iccid : String) :
    validate_iccid iccid = true ↔
      (19 ≤ (stripSpacesDashes iccid).length ∧
       (stripSpacesDashes iccid).length ≤ 20 ∧
       (stripSpacesDashes iccid).data.all pyIsDigitChar = true) := by
  unfold validate_iccid pyStrIsDigit
  by_cases h0 : iccid = ""
  · subst h0
    decide
  · simp only [h0, if_false]
    cases h19 : decide (19 ≤ (stripSpacesDashes iccid).length) with
    | false =>
      have h19' := of_decide_eq_false h19
      simp [h19']
    | true =>
      have h19' := of_decide_eq_true h19
      cases h20 : decide ((stripSpacesDashes iccid).length ≤ 20) with
      | false =>
        have h20' := of_decide_eq_false h20
        simp [h20']
      | true =>
        have h20' := of_decide_eq_true h20
        have h1 : decide (1 ≤ (stripSpacesDashes iccid).length) = true :=
          decide_eq_true (le_trans (by norm_num) h19')
        cases hall : (stripSpacesDashes iccid).data.all pyIsDigitChar with
        | false => simp [hall, h19', h20']
        | true => simp [hall, h1, h19', h20']

/-- C10 (amended): `get_sim_by_iccid` raises `ValueError` exactly when the
ICCID, after removing spaces and dashes, is not a string of 19-20
characters accepted by Python's `str.isdigit` (the decimal digits plus
further Unicode digit characters such as superscripts); for ICCIDs passing
this check it never raises on account of the ICCID and returns the
matching SIM or `None`; `create_sim` and `update_sim` reject malformed
ICCIDs the same way. -/
theorem sim_iccid_validation_gate :
    (∀ (db : Db) (iccid : String),
      getSimByIccid db iccid = .error .valueError ↔
        ¬(19 ≤ (stripSpacesDashes iccid).length ∧
          (stripSpacesDashes iccid).length ≤ 20 ∧
          (stripSpacesDashes iccid).data.all pyIsDigitChar = true)) ∧
    (∀ (db : Db) (iccid : String),
      validate_iccid iccid = true → (db.sims.map (fun s => s.iccid)).Nodup →
      getSimByIccid db iccid =
        .ok ((db.sims.filter (fun s => s.iccid == iccid)).head?)) ∧
    (∀ (db : Db) (c : SIMCreate),
      validate_iccid c.iccid = false → createSim db c = .error .valueError) ∧
    (∀ (db : Db) (iccid : String) (u : SIMUpdate),
      updateSim db iccid u = .error .valueError ↔ validate_iccid iccid = false) := by
  have gkey : ∀ (db : Db) (iccid : String), validate_iccid iccid = true →
      (db.sims.map (fun s => s.iccid)).Nodup →
      getSimByIccid db iccid =
        .ok ((db.sims.filter (fun s => s.iccid == iccid)).head?) := by
    intro db iccid hv hnd
    unfold getSimByIccid
    rcases filter_key_cases (fun s : SIM => s.iccid) db.sims iccid hnd with hf | ⟨s, hf⟩ <;>
      simp [hv, hf]
  have hmatch : ∀ (l : List SIM),
      (match l with
        | [] => Except.ok (none : Option SIM)
        | [s] => Except.ok (some s)
        | _ => Except.error SvcError.multipleResults) ≠
        Except.error SvcError.valueError := by
    intro l
    match l with
    | [] => simp
    | [s] => simp
    | a :: b :: t => simp
  have gerr : ∀ (db : Db) (iccid : String),
      getSimByIccid db iccid = .error .valueError ↔ validate_iccid iccid = false := by
    intro db iccid
    unfold getSimByIccid
    cases hv : validate_iccid iccid with
    | false => simp
    | true =>
      rw [if_neg (by decide)]
      constructor
      · intro h
        exact absurd h (hmatch (db.sims.filter (fun s => s.iccid == iccid)))
      · intro h
        exact absurd h (by decide)
  refine ⟨?_, gkey, ?_, ?_⟩
  · intro db iccid
    rw [gerr db iccid, ← validate_iccid_eq_true_iff]
    cases hv : validate_iccid iccid <;> simp
  · intro db c h
    unfold createSim
    simp [h]
  · intro db iccid u
    unfold updateSim
    constructor
    · intro h
      match hg : getSimByIccid db iccid with
      | .error e =>
        rw [hg] at h
        simp only [Except.error.injEq] at h
        rw [h] at hg
        exact (gerr db iccid).mp hg
      | .ok none => rw [hg] at h; simp at h
      | .ok (some s) => rw [hg] at h; simp at h
    · intro h
      have hge : getSimByIccid db iccid = .error .valueError := by
        unfold getSimByIccid; simp [h]
      rw [hge]

/-- Witness for `sim_iccid_validation_gate`: a concrete well-formed ICCID
against the empty store returns `.ok none`. -/
theorem sim_iccid_validation_gate_witness :
    validate_iccid "8991101200003204514" = true ∧
    getSimByIccid ⟨[], [], [], 1⟩ "8991101200003204514" =
      .ok ((([] : List SIM).filter (fun s => s.iccid == "8991101200003204514")).head?) :=
  ⟨by decide,
   sim_iccid_validation_gate.2.1 ⟨[], [], [], 1⟩ "8991101200003204514"
     (by decide) (by decide)⟩

/-! ## OAuth token cache (`OnceClient._get_access_token`)

The client keeps `_token : Optional[str]` and `_token_expires_at :
Optional[datetime]`.  Timestamps are seconds (`Int`); `datetime.utcnow()`
is modelled as a monotone clock supplied per call.  The cached-token check
is Python truthiness: `self._token and self._token_expires_at and now <
expires_at`, so an empty-string token counts as absent. -/

structure TokenState where
  token : Option String
  expiresAt : Option Int
deriving Repr, DecidableEq

/-- The `expires_in` field of the token response: absent (`.get` default
3600), present but not a number (`expires_in - 300` then raises
`TypeError`), or an integer. -/
inductive ExpiresIn
  | absent
  | malformed
  | value (n : Int)
deriving Repr, DecidableEq

/-- Behaviour of one `POST /oauth/token` round trip. -/
inductive TokenResp
  | statusErr (status : Nat) (text : String)
  | connError (msg : String)
  | badJson (msg : String)
  | ok (accessToken : Option String) (expiresIn : ExpiresIn)
deriving Repr, DecidableEq

/-- Errors raised by the client layer (Python exception values, with the
message text they carry where a claim depends on it). -/
inductive PyErr
  | httpxTimeout
  | httpxNetworkError (msg : String)
  | httpxStatusError (status : Nat) (text : String)
  | onceAuthError (msg : String)
  | onceRateLimitError (retryAfter : Int) (msg : String)
  | onceTimeoutError (msg : String)
  | onceAPIError (msg : String)
  | otherExc (msg : String)
  | tenacityRetryError
deriving Repr, DecidableEq

/-- Outcome of one `_get_access_token` call: the returned token or raised
error, the client state after the call, and whether a token exchange was
performed (a request hit the token endpoint). -/
structure TokenCallResult where
  result : Except PyErr String
  state : TokenState
  exchanged : Bool
deriving Repr, DecidableEq

/-- Python truthiness of `self._token`. -/
def tokenTruthy : Option String → Bool
  | none => false
  | some t => !(t == "")

/-- `OnceClient._get_access_token`.  Returns the cached token when
`self._token and self._token_expires_at and utcnow() < expires_at`;
otherwise performs one client-credentials exchange.  On success it stores
the token and `expires_at = now + expires_in - 300` (`expires_in`
defaulting to 3600).  Failures raise `OnceAuthError`; note that
`self._token = data["access_token"]` is executed before `expires_in - 300`
can raise, so a malformed `expires_in` leaves the new token stored while
the old expiry survives. -/
def getAccessToken (s : TokenState) (now : Int) (resp : TokenResp) :
    TokenCallResult :=
  let cachedValid : Bool :=
    match s.token, s.expiresAt with
    | some t, some e => !(t == "") && decide (now < e)
    | _, _ => false
  if cachedValid then
    { result := .ok (s.token.getD ""), state := s, exchanged := false }
  else
    match resp with
    | .statusErr _ text =>
      { result := .error (.onceAuthError ("Authentication failed: " ++ text)),
        state := s, exchanged := true }
    | .connError msg =>
      { result := .error (.onceAuthError ("Authentication error: " ++ msg)),
        state := s, exchanged := true }
    | .badJson msg =>
      { result := .error (.onceAuthError ("Authentication error: " ++ msg)),
        state := s, exchanged := true }
    | .ok none _ =>
      { result := .error (.onceAuthError "Authentication error: 'access_token'"),
        state := s, exchanged := true }
    | .ok (some tok) .malformed =>
      { result := .error (.onceAuthError "Authentication error: unsupported operand type(s)"),
        state := { s with token := some tok }, exchanged := true }
    | .ok (some tok) .absent =>
      { result := .ok tok,
        state := { token := some tok, expiresAt := some (now + 3600 - 300) },
        exchanged := true }
    | .ok (some tok) (.value n) =>
      { result := .ok tok,
        state := { token := some tok, expiresAt := some (now + n - 300) },
        exchanged := true }

/-- A sequence of `_get_access_token` calls threading the client state:
each element pairs the call's `utcnow()` with the behaviour the token
endpoint would exhibit if contacted. -/
def runTokenCalls (s : TokenState) :
    List (Int × TokenResp) → TokenState × List (Except PyErr String × Bool)
  | [] => (s, [])
  | (t, r) :: rest =>
    ((runTokenCalls (getAccessToken s t r).state rest).1,
     ((getAccessToken s t r).result, (getAccessToken s t r).exchanged) ::
       (runTokenCalls (getAccessToken s t r).state rest).2)

/-- The `access_token` field carried by a token-endpoint response. -/
def respToken : TokenResp → Option String
  | .ok tk _ => tk
  | _ => none

/-- Whether an exchange against this response succeeds (reaches the final
`return self._token` of `_get_access_token`). -/
def respOkShape : TokenResp → Bool
  | .ok (some _) .absent => true
  | .ok (some _) (.value _) => true
  | _ => false

/-- C3 counterexample.  The claim concludes that two authenticated calls
within the token TTL perform exactly one token exchange.  The cache stores
`expires_at = now + ttl - 300`, so a second call 3400 s after the first —
within the reported TTL of 3600 s — finds the cached entry expired and
performs a second exchange. -/
theorem token_ttl_edge_counterexample :
    ((3400 : Int) < 3600) ∧
    (runTokenCalls ⟨none, none⟩
        [(0, .ok (some "A") (.value 3600)), (3400, .ok (some "B") (.value 3600))]).2 =
      [(.ok "A", true), (.ok "B", true)] := by
  exact ⟨by decide, by decide⟩

/-- C3 (amended): `_get_access_token` returns the cached token without an
exchange whenever the cached expiry lies in the future, otherwise performs
exactly one exchange storing `expires_at = now + reported_ttl - 300`; two
calls within `reported_ttl - 300` seconds of each other perform exactly
one exchange; and a call that skips the exchange only does so before the
stored expiry. -/
theorem token_cache_lifecycle :
    (∀ (s : TokenState) (now : Int) (resp : TokenResp) (t : String) (e : Int),
      s.token = some t → t ≠ "" → s.expiresAt = some e → now < e →
      getAccessToken s now resp = ⟨.ok t, s, false⟩) ∧
    (∀ (s : TokenState) (now : Int) (tok : String) (n : Int),
      (∀ t e, s.token = some t → s.expiresAt = some e → t = "" ∨ e ≤ now) →
      getAccessToken s now (.ok (some tok) (.value n)) =
        ⟨.ok tok, ⟨some tok, some (now + n - 300)⟩, true⟩) ∧
    (∀ (t0 t1 n : Int) (tok : String) (resp2 : TokenResp),
      tok ≠ "" → t0 ≤ t1 → t1 < t0 + n - 300 →
      (runTokenCalls ⟨none, none⟩
          [(t0, .ok (some tok) (.value n)), (t1, resp2)]).2 =
        [(.ok tok, true), (.ok tok, false)]) ∧
    (∀ (s : TokenState) (now : Int) (resp : TokenResp),
      (getAccessToken s now resp).exchanged = false →
      ∃ e, s.expiresAt = some e ∧ now < e) := by
  refine ⟨?_, ?_, ?_, ?_⟩
  · intro s now resp t e htok hne hexp hlt
    obtain ⟨stok, sexp⟩ := s
    simp only at htok hexp
    subst htok hexp
    have hbeq : (t == "") = false := by simpa using hne
    simp [getAccessToken, hbeq, hlt]
  · intro s now tok n hmiss
    obtain ⟨stok, sexp⟩ := s
    unfold getAccessToken
    cases stok with
    | none => simp
    | some t =>
      cases sexp with
      | none => simp
      | some e =>
        rcases hmiss t e rfl rfl with h | h
        · subst h; simp
        · have : decide (now < e) = false := by simp; omega
          simp [this]
  · intro t0 t1 n tok resp2 hne h01 hlt
    have hbeq : (tok == "") = false := by simpa using hne
    have hcold : getAccessToken ⟨none, none⟩ t0 (.ok (some tok) (.value n)) =
        ⟨.ok tok, ⟨some tok, some (t0 + n - 300)⟩, true⟩ := by
      simp [getAccessToken]
    have hlt' : decide (t1 < t0 + n - 300) = true := by simp; omega
    simp [runTokenCalls, hcold, getAccessToken, hbeq, hlt']
  · intro s now resp h
    obtain ⟨stok, sexp⟩ := s
    unfold getAccessToken at h
    cases stok with
    | none => cases resp with
      | statusErr st text => simp at h
      | connError m => simp at h
      | badJson m => simp at h
      | ok tk ei =>
        cases tk with
        | none => simp at h
        | some t => cases ei <;> simp at h
    | some t =>
      cases sexp with
      | none => cases resp with
        | statusErr st text => simp at h
        | connError m => simp at h
        | badJson m => simp at h
        | ok tk ei =>
          cases tk with
          | none => simp at h
          | some t2 => cases ei <;> simp at h
      | some e =>
        refine ⟨e, rfl, ?_⟩
        by_contra hge
        have hd : decide (now < e) = false := by simp; omega
        cases resp with
        | statusErr st text => simp [hd] at h
        | connError m => simp [hd] at h
        | badJson m => simp [hd] at h
        | ok tk ei =>
          cases tk with
          | none => simp [hd] at h
          | some t2 => cases ei <;> simp [hd] at h

/-- Witness for `token_cache_lifecycle`: a second call 100 s after a
successful exchange with TTL 3600 reuses the cached token without a second
exchange. -/
theorem token_cache_lifecycle_witness :
    ("A" : String) ≠ "" ∧ (0 : Int) ≤ 100 ∧ (100 : Int) < 0 + 3600 - 300 ∧
    (runTokenCalls ⟨none, none⟩
        [(0, .ok (some "A") (.value 3600)), (100, .statusErr 500 "boom")]).2 =
      [(.ok "A", true), (.ok "A", false)] :=
  ⟨by decide, by decide, by decide,
   token_cache_lifecycle.2.2.1 0 100 3600 "A" (.statusErr 500 "boom")
     (by decide) (by decide) (by decide)⟩

/-- C4 counterexample.  `self._token = data["access_token"]` executes
before `expires_in - 300` can raise, so a failed exchange can leave its
token stored.  Because the cached-token check uses Python truthiness, an
earlier successful exchange that returned an empty `access_token` leaves a
future expiry behind, and the token stored by the later FAILED exchange
(call 2, which raises `OnceAuthError`) is then served by call 3. -/
theorem token_partial_cache_counterexample :
    (runTokenCalls ⟨none, none⟩
        [(0, .ok (some "") (.value 3600)),
         (10, .ok (some "B") .malformed),
         (20, .statusErr 503 "down")]).2 =
      [(.ok "", true),
       (.error (.onceAuthError "Authentication error: unsupported operand type(s)"), true),
       (.ok "B", false)] := by
  decide

/-- Invariant step: under the trace hypotheses, one `_get_access_token`
call never returns the marked token `b` (a token only ever supplied by
failed exchanges) and preserves the state invariants. -/
theorem getAccessToken_step (stok : Option String) (sexp : Option Int)
    (t : Int) (r : TokenResp) (b : String)
    (hW2 : ∀ tk, stok = some tk → (tk ≠ "" ∨ tk = b))
    (hW1 : stok = none → sexp = none)
    (hIb : stok = some b → sexp = none ∨ ∃ e, sexp = some e ∧ e ≤ t)
    (hH2 : ∀ tok, respToken r = some tok → tok ≠ "")
    (hH3 : respToken r = some b → respOkShape r = false) :
    (getAccessToken ⟨stok, sexp⟩ t r).result ≠ .ok b ∧
    (∀ tk, (getAccessToken ⟨stok, sexp⟩ t r).state.token = some tk →
      (tk ≠ "" ∨ tk = b)) ∧
    ((getAccessToken ⟨stok, sexp⟩ t r).state.token = none →
      (getAccessToken ⟨stok, sexp⟩ t r).state.expiresAt = none) ∧
    ((getAccessToken ⟨stok, sexp⟩ t r).state.token = some b →
      (getAccessToken ⟨stok, sexp⟩ t r).state.expiresAt = none ∨
        ∃ e, (getAccessToken ⟨stok, sexp⟩ t r).state.expiresAt = some e ∧ e ≤ t) := by
  cases stok with
  | none =>
    have hse : sexp = none := hW1 rfl
    subst hse
    cases r with
    | statusErr st text =>
      refine ⟨by simp [getAccessToken], ?_, ?_, ?_⟩ <;> simp [getAccessToken]
    | connError m =>
      refine ⟨by simp [getAccessToken], ?_, ?_, ?_⟩ <;> simp [getAccessToken]
    | badJson m =>
      refine ⟨by simp [getAccessToken], ?_, ?_, ?_⟩ <;> simp [getAccessToken]
    | ok tk ei =>
      cases tk with
      | none =>
        refine ⟨by simp [getAccessToken], ?_, ?_, ?_⟩ <;> simp [getAccessToken]
      | some tok =>
        have htokne : tok ≠ "" := hH2 tok (by simp [respToken])
        cases ei with
        | malformed =>
          refine ⟨by simp [getAccessToken], ?_, ?_, ?_⟩
          · intro tk2 h
            simp [getAccessToken] at h
            exact Or.inl (h ▸ htokne)
          · intro h; simp [getAccessToken] at h
          · intro h; simp [getAccessToken]
        | absent =>
          have htokb : tok ≠ b := by
            intro hb
            have := hH3 (by simp [respToken, hb])
            simp [respOkShape] at this
          refine ⟨?_, ?_, ?_, ?_⟩
          · simp [getAccessToken]
            exact htokb
          · intro tk2 h
            simp [getAccessToken] at h
            exact Or.inl (h ▸ htokne)
          · intro h; simp [getAccessToken] at h
          · intro h
            simp [getAccessToken] at h
            exact absurd h htokb
        | value n =>
          have htokb : tok ≠ b := by
            intro hb
            have := hH3 (by simp [respToken, hb])
            simp [respOkShape] at this
          refine ⟨?_, ?_, ?_, ?_⟩
          · simp [getAccessToken]
            exact htokb
          · intro tk2 h
            simp [getAccessToken] at h
            exact Or.inl (h ▸ htokne)
          · intro h; simp [getAccessToken] at h
          · intro h
            simp [getAccessToken] at h
            exact absurd h htokb
  | some tk0 =>
    cases sexp with
    | none =>
      -- cached check fails (no expiry); exchange path with old expiry none
      cases r with
      | statusErr st text =>
        refine ⟨by simp [getAccessToken], ?_, ?_, ?_⟩
        · intro tk2 h; simp [getAccessToken] at h; exact hW2 tk2 (by rw [h])
        · intro h; simp [getAccessToken] at h
        · intro h; simp [getAccessToken]
      | connError m =>
        refine ⟨by simp [getAccessToken], ?_, ?_, ?_⟩
        · intro tk2 h; simp [getAccessToken] at h; exact hW2 tk2 (by rw [h])
        · intro h; simp [getAccessToken] at h
        · intro h; simp [getAccessToken]
      | badJson m =>
        refine ⟨by simp [getAccessToken], ?_, ?_, ?_⟩
        · intro tk2 h; simp [getAccessToken] at h; exact hW2 tk2 (by rw [h])
        · intro h; simp [getAccessToken] at h
        · intro h; simp [getAccessToken]
      | ok tk ei =>
        cases tk with
        | none =>
          refine ⟨by simp [getAccessToken], ?_, ?_, ?_⟩
          · intro tk2 h; simp [getAccessToken] at h; exact hW2 tk2 (by rw [h])
          · intro h; simp [getAccessToken] at h
          · intro h; simp [getAccessToken]
        | some tok =>
          have htokne : tok ≠ "" := hH2 tok (by simp [respToken])
          cases ei with
          | malformed =>
            refine ⟨by simp [getAccessToken], ?_, ?_, ?_⟩
            · intro tk2 h
              simp [getAccessToken] at h
              exact Or.inl (h ▸ htokne)
            · intro h; simp [getAccessToken] at h
            · intro h; simp [getAccessToken]
          | absent =>
            have htokb : tok ≠ b := by
              intro hb
              have := hH3 (by simp [respToken, hb])
              simp [respOkShape] at this
            refine ⟨?_, ?_, ?_, ?_⟩
            · simp [getAccessToken]
              exact htokb
            · intro tk2 h
              simp [getAccessToken] at h
              exact Or.inl (h ▸ htokne)
            · intro h; simp [getAccessToken] at h
            · intro h
              simp [getAccessToken] at h
              exact absurd h htokb
          | value n =>
            have htokb : tok ≠ b := by
              intro hb
              have := hH3 (by simp [respToken, hb])
              simp [respOkShape] at this
            refine ⟨?_, ?_, ?_, ?_⟩
            · simp [getAccessToken]
              exact htokb
            · intro tk2 h
              simp [getAccessToken] at h
              exact Or.inl (h ▸ htokne)
            · intro h; simp [getAccessToken] at h
            · intro h
              simp [getAccessToken] at h
              exact absurd h htokb
    | some e =>
      cases hbe : (tk0 == "") with
      | true =>
        -- Python truthiness: empty cached token counts as absent; by the
        -- invariant the stored empty token can only be b itself, whose
        -- expiry bound transfers to the new state
        have htk0 : tk0 = "" := by simpa using hbe
        have htk0b : tk0 = b := by
          rcases hW2 tk0 rfl with h | h
          · exact absurd htk0 h
          · exact h
        have hexpbound : e ≤ t := by
          rcases hIb (by rw [htk0b]) with hnone | ⟨e2, he2, hle⟩
          · exact Option.noConfusion hnone
          · cases Option.some.inj he2; omega
        cases r with
        | statusErr st text =>
          refine ⟨by simp [getAccessToken, hbe], ?_, ?_, ?_⟩
          · intro tk2 h; simp [getAccessToken, hbe] at h
            exact hW2 tk2 (by rw [h])
          · intro h; simp [getAccessToken, hbe] at h
          · intro h
            refine Or.inr ⟨e, by simp [getAccessToken, hbe], hexpbound⟩
        | connError m =>
          refine ⟨by simp [getAccessToken, hbe], ?_, ?_, ?_⟩
          · intro tk2 h; simp [getAccessToken, hbe] at h
            exact hW2 tk2 (by rw [h])
          · intro h; simp [getAccessToken, hbe] at h
          · intro h
            refine Or.inr ⟨e, by simp [getAccessToken, hbe], hexpbound⟩
        | badJson m =>
          refine ⟨by simp [getAccessToken, hbe], ?_, ?_, ?_⟩
          · intro tk2 h; simp [getAccessToken, hbe] at h
            exact hW2 tk2 (by rw [h])
          · intro h; simp [getAccessToken, hbe] at h
          · intro h
            refine Or.inr ⟨e, by simp [getAccessToken, hbe], hexpbound⟩
        | ok tk ei =>
          cases tk with
          | none =>
            refine ⟨by simp [getAccessToken, hbe], ?_, ?_, ?_⟩
            · intro tk2 h; simp [getAccessToken, hbe] at h
              exact hW2 tk2 (by rw [h])
            · intro h; simp [getAccessToken, hbe] at h
            · intro h
              refine Or.inr ⟨e, by simp [getAccessToken, hbe], hexpbound⟩
          | some tok =>
            have htokne : tok ≠ "" := hH2 tok (by simp [respToken])
            cases ei with
            | malformed =>
              refine ⟨by simp [getAccessToken, hbe], ?_, ?_, ?_⟩
              · intro tk2 h
                simp [getAccessToken, hbe] at h
                exact Or.inl (h ▸ htokne)
              · intro h; simp [getAccessToken, hbe] at h
              · intro h
                refine Or.inr ⟨e, by simp [getAccessToken, hbe], hexpbound⟩
            | absent =>
              have htokb : tok ≠ b := by
                intro hb
                have := hH3 (by simp [respToken, hb])
                simp [respOkShape] at this
              refine ⟨?_, ?_, ?_, ?_⟩
              · simp [getAccessToken, hbe]
                exact htokb
              · intro tk2 h
                simp [getAccessToken, hbe] at h
                exact Or.inl (h ▸ htokne)
              · intro h; simp [getAccessToken, hbe] at h
              · intro h
                simp [getAccessToken, hbe] at h
                exact absurd h htokb
            | value n =>
              have htokb : tok ≠ b := by
                intro hb
                have := hH3 (by simp [respToken, hb])
                simp [respOkShape] at this
              refine ⟨?_, ?_, ?_, ?_⟩
              · simp [getAccessToken, hbe]
                exact htokb
              · intro tk2 h
                simp [getAccessToken, hbe] at h
                exact Or.inl (h ▸ htokne)
              · intro h; simp [getAccessToken, hbe] at h
              · intro h
                simp [getAccessToken, hbe] at h
                exact absurd h htokb
      | false =>
        have htk0ne : tk0 ≠ "" := by simpa using hbe
        cases hlt : decide (t < e) with
        | true =>
          -- cached token served
          have hlt' : t < e := of_decide_eq_true hlt
          have htk0b : tk0 ≠ b := by
            intro hb
            rcases hIb (by rw [hb]) with hnone | ⟨e2, he2, hle⟩
            · exact Option.noConfusion hnone
            · cases Option.some.inj he2; omega
          refine ⟨?_, ?_, ?_, ?_⟩
          · simp [getAccessToken, hbe, hlt]
            exact htk0b
          · intro tk2 h
            simp [getAccessToken, hbe, hlt] at h
            exact hW2 tk2 (by rw [h])
          · intro h; simp [getAccessToken, hbe, hlt] at h
          · intro h
            simp [getAccessToken, hbe, hlt] at h
            exact absurd h htk0b
        | false =>
          -- cached token expired: exchange path, old expiry is ≤ t
          have hexpbound : e ≤ t := by
            have := of_decide_eq_false hlt
            omega
          cases r with
          | statusErr st text =>
            refine ⟨by simp [getAccessToken, hbe, hlt], ?_, ?_, ?_⟩
            · intro tk2 h; simp [getAccessToken, hbe, hlt] at h
              exact hW2 tk2 (by rw [h])
            · intro h; simp [getAccessToken, hbe, hlt] at h
            · intro h
              refine Or.inr ⟨e, by simp [getAccessToken, hbe, hlt], hexpbound⟩
          | connError m =>
            refine ⟨by simp [getAccessToken, hbe, hlt], ?_, ?_, ?_⟩
            · intro tk2 h; simp [getAccessToken, hbe, hlt] at h
              exact hW2 tk2 (by rw [h])
            · intro h; simp [getAccessToken, hbe, hlt] at h
            · intro h
              refine Or.inr ⟨e, by simp [getAccessToken, hbe, hlt], hexpbound⟩
          | badJson m =>
            refine ⟨by simp [getAccessToken, hbe, hlt], ?_, ?_, ?_⟩
            · intro tk2 h; simp [getAccessToken, hbe, hlt] at h
              exact hW2 tk2 (by rw [h])
            · intro h; simp [getAccessToken, hbe, hlt] at h
            · intro h
              refine Or.inr ⟨e, by simp [getAccessToken, hbe, hlt], hexpbound⟩
          | ok tk ei =>
            cases tk with
            | none =>
              refine ⟨by simp [getAccessToken, hbe, hlt], ?_, ?_, ?_⟩
              · intro tk2 h; simp [getAccessToken, hbe, hlt] at h
                exact hW2 tk2 (by rw [h])
              · intro h; simp [getAccessToken, hbe, hlt] at h
              · intro h
                refine Or.inr ⟨e, by simp [getAccessToken, hbe, hlt], hexpbound⟩
            | some tok =>
              have htokne : tok ≠ "" := hH2 tok (by simp [respToken])
              cases ei with
              | malformed =>
                refine ⟨by simp [getAccessToken, hbe, hlt], ?_, ?_, ?_⟩
                · intro tk2 h
                  simp [getAccessToken, hbe, hlt] at h
                  exact Or.inl (h ▸ htokne)
                · intro h; simp [getAccessToken, hbe, hlt] at h
                · intro h
                  refine Or.inr ⟨e, by simp [getAccessToken, hbe, hlt], hexpbound⟩
              | absent =>
                have htokb : tok ≠ b := by
                  intro hb
                  have := hH3 (by simp [respToken, hb])
                  simp [respOkShape] at this
                refine ⟨?_, ?_, ?_, ?_⟩
                · simp [getAccessToken, hbe, hlt]
                  exact htokb
                · intro tk2 h
                  simp [getAccessToken, hbe, hlt] at h
                  exact Or.inl (h ▸ htokne)
                · intro h; simp [getAccessToken, hbe, hlt] at h
                · intro h
                  simp [getAccessToken, hbe, hlt] at h
                  exact absurd h htokb
              | value n =>
                have htokb : tok ≠ b := by
                  intro hb
                  have := hH3 (by simp [respToken, hb])
                  simp [respOkShape] at this
                refine ⟨?_, ?_, ?_, ?_⟩
                · simp [getAccessToken, hbe, hlt]
                  exact htokb
                · intro tk2 h
                  simp [getAccessToken, hbe, hlt] at h
                  exact Or.inl (h ▸ htokne)
                · intro h; simp [getAccessToken, hbe, hlt] at h
                · intro h
                  simp [getAccessToken, hbe, hlt] at h
                  exact absurd h htokb

/-- Trace lemma: starting from any state satisfying the invariants, no
call of the trace ever returns the marked token `b`. -/
theorem runTokenCalls_no_failed_token (b : String) :
    ∀ (calls : List (Int × TokenResp)) (stok : Option String)
      (sexp : Option Int) (tlow : Int),
      List.Chain (fun a c => a ≤ c) tlow (calls.map Prod.fst) →
      (∀ tk, stok = some tk → (tk ≠ "" ∨ tk = b)) →
      (stok = none → sexp = none) →
      (stok = some b → sexp = none ∨ ∃ e, sexp = some e ∧ e ≤ tlow) →
      (∀ p ∈ calls, ∀ tok, respToken p.2 = some tok → tok ≠ "") →
      (∀ p ∈ calls, respToken p.2 = some b → respOkShape p.2 = false) →
      ∀ out ∈ (runTokenCalls ⟨stok, sexp⟩ calls).2, out.1 ≠ .ok b := by
  intro calls
  induction calls with
  | nil =>
    intro stok sexp tlow _ _ _ _ _ _ out hout
    simp [runTokenCalls] at hout
  | cons p rest ih =>
    obtain ⟨t, r⟩ := p
    intro stok sexp tlow hord hW2 hW1 hIb hH2 hH3 out hout
    rw [List.map_cons, List.chain_cons] at hord
    obtain ⟨htl, hord'⟩ := hord
    have hIbt : stok = some b → sexp = none ∨ ∃ e, sexp = some e ∧ e ≤ t := by
      intro hb
      rcases hIb hb with h | ⟨e, he, hle⟩
      · exact Or.inl h
      · exact Or.inr ⟨e, he, le_trans hle htl⟩
    obtain ⟨hres, hW2', hW1', hIb'⟩ := getAccessToken_step stok sexp t r b hW2 hW1 hIbt
      (hH2 (t, r) (List.mem_cons_self _ _)) (hH3 (t, r) (List.mem_cons_self _ _))
    simp only [runTokenCalls, List.mem_cons] at hout
    rcases hout with hhead | htail
    · rw [hhead]; exact hres
    · exact ih (getAccessToken ⟨stok, sexp⟩ t r).state.token
        (getAccessToken ⟨stok, sexp⟩ t r).state.expiresAt t hord' hW2' hW1' hIb'
        (fun q hq => hH2 q (List.mem_cons_of_mem _ hq))
        (fun q hq => hH3 q (List.mem_cons_of_mem _ hq)) out htail

/-- C4 (amended): every failed token exchange raises `OnceAuthError`; and
provided the clock is non-decreasing and the token value written by a
failed exchange is never also supplied by a successful exchange of the
trace while all exchanged tokens are non-empty strings, no call of the
trace ever returns that token.  (Unamended, the claim fails: an empty
token cached by an earlier successful exchange defeats the truthiness
check and lets a partially-stored token from a failed exchange be served —
see the counterexample.) -/
theorem token_auth_failure_contract :
    (∀ (s : TokenState) (now : Int) (resp : TokenResp),
      respOkShape resp = false → (getAccessToken s now resp).exchanged = true →
      ∃ msg, (getAccessToken s now resp).result = .error (.onceAuthError msg)) ∧
    (∀ (calls : List (Int × TokenResp)) (tlow : Int) (b : String),
      List.Chain (fun a c => a ≤ c) tlow (calls.map Prod.fst) →
      (∀ p ∈ calls, ∀ tok, respToken p.2 = some tok → tok ≠ "") →
      (∀ p ∈ calls, respToken p.2 = some b → respOkShape p.2 = false) →
      ∀ out ∈ (runTokenCalls ⟨none, none⟩ calls).2, out.1 ≠ .ok b) := by
  constructor
  · intro s now resp hshape hexch
    obtain ⟨stok, sexp⟩ := s
    cases stok with
    | none =>
      cases resp with
      | statusErr st text =>
        exact ⟨"Authentication failed: " ++ text, by simp [getAccessToken]⟩
      | connError m =>
        exact ⟨"Authentication error: " ++ m, by simp [getAccessToken]⟩
      | badJson m =>
        exact ⟨"Authentication error: " ++ m, by simp [getAccessToken]⟩
      | ok tk ei =>
        cases tk with
        | none =>
          exact ⟨"Authentication error: 'access_token'", by simp [getAccessToken]⟩
        | some tok =>
          cases ei with
          | malformed =>
            exact ⟨"Authentication error: unsupported operand type(s)",
              by simp [getAccessToken]⟩
          | absent => simp [respOkShape] at hshape
          | value n => simp [respOkShape] at hshape
    | some tk0 =>
      cases sexp with
      | none =>
        cases resp with
        | statusErr st text =>
          exact ⟨"Authentication failed: " ++ text, by simp [getAccessToken]⟩
        | connError m =>
          exact ⟨"Authentication error: " ++ m, by simp [getAccessToken]⟩
        | badJson m =>
          exact ⟨"Authentication error: " ++ m, by simp [getAccessToken]⟩
        | ok tk ei =>
          cases tk with
          | none =>
            exact ⟨"Authentication error: 'access_token'", by simp [getAccessToken]⟩
          | some tok =>
            cases ei with
            | malformed =>
              exact ⟨"Authentication error: unsupported operand type(s)",
                by simp [getAccessToken]⟩
            | absent => simp [respOkShape] at hshape
            | value n => simp [respOkShape] at hshape
      | some e =>
        cases hbe : (tk0 == "") with
        | true =>
          cases resp with
          | statusErr st text =>
            exact ⟨"Authentication failed: " ++ text, by simp [getAccessToken, hbe]⟩
          | connError m =>
            exact ⟨"Authentication error: " ++ m, by simp [getAccessToken, hbe]⟩
          | badJson m =>
            exact ⟨"Authentication error: " ++ m, by simp [getAccessToken, hbe]⟩
          | ok tk ei =>
            cases tk with
            | none =>
              exact ⟨"Authentication error: 'access_token'",
                by simp [getAccessToken, hbe]⟩
            | some tok =>
              cases ei with
              | malformed =>
                exact ⟨"Authentication error: unsupported operand type(s)",
                  by simp [getAccessToken, hbe]⟩
              | absent => simp [respOkShape] at hshape
              | value n => simp [respOkShape] at hshape
        | false =>
          cases hlt : decide (now < e) with
          | true => simp [getAccessToken, hbe, hlt] at hexch
          | false =>
            cases resp with
            | statusErr st text =>
              exact ⟨"Authentication failed: " ++ text,
                by simp [getAccessToken, hbe, hlt]⟩
            | connError m =>
              exact ⟨"Authentication error: " ++ m,
                by simp [getAccessToken, hbe, hlt]⟩
            | badJson m =>
              exact ⟨"Authentication error: " ++ m,
                by simp [getAccessToken, hbe, hlt]⟩
            | ok tk ei =>
              cases tk with
              | none =>
                exact ⟨"Authentication error: 'access_token'",
                  by simp [getAccessToken, hbe, hlt]⟩
              | some tok =>
                cases ei with
                | malformed =>
                  exact ⟨"Authentication error: unsupported operand type(s)",
                    by simp [getAccessToken, hbe, hlt]⟩
                | absent => simp [respOkShape] at hshape
                | value n => simp [respOkShape] at hshape
  · intro calls tlow b hord h2 h3
    exact runTokenCalls_no_failed_token b calls none none tlow hord
      (fun tk h => Option.noConfusion h) (fun _ => rfl)
      (fun h => Option.noConfusion h) h2 h3

/-- Witness for `token_auth_failure_contract`: in a concrete two-call
trace whose only supplier of token B is a failed exchange, no call returns
B. -/
theorem token_auth_failure_contract_witness :
    List.Chain (fun a c => a ≤ c) 0
      (([((0 : Int), TokenResp.ok (some "B") .malformed),
         (5, .statusErr 500 "x")]).map Prod.fst) ∧
    ∀ out ∈ (runTokenCalls ⟨none, none⟩
        [((0 : Int), TokenResp.ok (some "B") .malformed),
         (5, .statusErr 500 "x")]).2,
      out.1 ≠ .ok "B" := by
  have hord : List.Chain (fun a c : Int => a ≤ c) 0
      (([((0 : Int), TokenResp.ok (some "B") .malformed),
         (5, .statusErr 500 "x")]).map Prod.fst) := by
    simp only [List.map_cons, List.map_nil]
    exact List.Chain.cons (by norm_num) (List.Chain.cons (by norm_num) List.Chain.nil)
  refine ⟨hord, ?_⟩
  apply token_auth_failure_contract.2 _ 0 "B" hord
  · intro p hp tok htok
    rcases List.mem_cons.mp hp with h | hp2
    · subst h
      simp [respToken] at htok
      subst htok
      decide
    · rcases List.mem_cons.mp hp2 with h | hp3
      · subst h; simp [respToken] at htok
      · simp at hp3
  · intro p hp hb
    rcases List.mem_cons.mp hp with h | hp2
    · subst h; simp [respOkShape]
    · rcases List.mem_cons.mp hp2 with h | hp3
      · subst h; simp [respToken] at hb
      · simp at hp3

/-! ## HTTP request pipeline (`OnceClient._request`)

`_request` is decorated with
`tenacity.retry(retry_if_exception_type((httpx.TimeoutException,
httpx.NetworkError)), wait_exponential(...), stop_after_attempt(3))`.
Inside the function, the whole HTTP interaction sits in a `try` whose
`except` clauses translate `httpx.TimeoutException` to `OnceTimeoutError`,
`httpx.HTTPStatusError` to `OnceAPIError`, and every other `Exception` —
including the `OnceRateLimitError` raised for a 429 in the same `try`
block — to `OnceAPIError`.  The model splits the function into the
`try`-block outcome and the `except`-chain translation, then wraps the
tenacity loop around both (the token fetch sits inside the decorated
function but outside the `try`). -/

/-- Behaviour of one underlying `httpx` round trip.  `retryAfterHeader` is
the parsed `Retry-After` header when present; `body` is the parsed JSON
body of a 2xx response, `none` when parsing would fail. -/
inductive HttpResult (α : Type)
  | timeoutExc
  | networkExc (msg : String)
  | response (status : Nat) (retryAfterHeader : Option Int) (text : String)
      (body : Option α)
deriving Repr, DecidableEq

/-- `retry_if_exception_type((httpx.TimeoutException, httpx.NetworkError))`:
the only exception classes the tenacity decorator retries. -/
def retryHttpxPred : PyErr → Bool
  | .httpxTimeout => true
  | .httpxNetworkError _ => true
  | _ => false

/-- Python `str(e)` for the exception values reaching the blanket
`except Exception` clause. -/
def pyStr : PyErr → String
  | .httpxTimeout => "timed out"
  | .httpxNetworkError m => m
  | .httpxStatusError _ text => text
  | .onceAuthError m => m
  | .onceRateLimitError _ m => m
  | .onceTimeoutError m => m
  | .onceAPIError m => m
  | .otherExc m => m
  | .tenacityRetryError => "RetryError"

/-- The `try` block of `_request`: issue the request; raise
`OnceRateLimitError` on 429 (carrying the `Retry-After` value, 60 when the
header is absent); `raise_for_status()` raises `httpx.HTTPStatusError` on
any other non-2xx; 204 yields `{}`; other 2xx yield the parsed JSON (a
parse failure raises a generic exception). -/
def tryBlockResult {α : Type} (out : HttpResult α) : Except PyErr (Option α) :=
  match out with
  | .timeoutExc => .error .httpxTimeout
  | .networkExc msg => .error (.httpxNetworkError msg)
  | .response status ra text body =>
    if status == 429 then
      .error (.onceRateLimitError (ra.getD 60)
        ("Rate limit exceeded. Retry after " ++ toString (ra.getD 60) ++ "s"))
    else if status < 200 || 300 ≤ status then
      .error (.httpxStatusError status text)
    else if status == 204 then
      .ok none
    else
      match body with
      | some b => .ok (some b)
      | none => .error (.otherExc text)

/-- The `except` clauses of `_request`, in source order:
`httpx.TimeoutException` becomes `OnceTimeoutError`,
`httpx.HTTPStatusError` becomes `OnceAPIError("API error {status}: ...")`,
and any other `Exception` — the raised `OnceRateLimitError` included —
becomes `OnceAPIError("Unexpected error: " + str(e))`. -/
def exceptChain {α : Type} (r : Except PyErr (Option α)) : Except PyErr (Option α) :=
  match r with
  | .ok v => .ok v
  | .error .httpxTimeout => .error (.onceTimeoutError "Request timeout")
  | .error (.httpxStatusError st text) =>
    .error (.onceAPIError ("API error " ++ toString st ++ ": " ++ text))
  | .error e => .error (.onceAPIError ("Unexpected error: " ++ pyStr e))

/-- One call of the decorated `_request` body: fetch a token (its
`OnceAuthError` propagates untranslated, the token fetch being outside the
`try`), then run the `try`/`except` around the HTTP call. -/
def requestOnce {α : Type} (tokenResult : Except PyErr String)
    (out : HttpResult α) : Except PyErr (Option α) :=
  match tokenResult with
  | .error e => .error e
  | .ok _ => exceptChain (tryBlockResult out)

/-- The tenacity retry loop: run the call; retry only when the raised
exception satisfies the retry predicate and attempts remain
(`stop_after_attempt` counts calls); when attempts are exhausted on a
retryable exception, tenacity raises `RetryError`.  Returns the result
and the number of calls made. -/
def retryLoop {α : Type} (f : Nat → Except PyErr α) :
    Nat → Nat → Except PyErr α × Nat
  | made, 0 => (.error .tenacityRetryError, made)
  | made, remaining + 1 =>
    match f made with
    | .ok a => (.ok a, made + 1)
    | .error e =>
      if retryHttpxPred e then
        match remaining with
        | 0 => (.error .tenacityRetryError, made + 1)
        | _ + 1 => retryLoop f (made + 1) remaining
      else (.error e, made + 1)

/-- `OnceClient._request` as called by the carrier-client methods: the
tenacity decorator around `requestOnce`, with `stop_after_attempt(3)`
hard-coded in the decorator (the configured `max_retries` is not used
there).  `tokenResults k`/`outs k` give the token fetch and HTTP outcome
of attempt `k`. -/
def onceRequest {α : Type} (tokenResults : Nat → Except PyErr String)
    (outs : Nat → HttpResult α) : Except PyErr (Option α) × Nat :=
  retryLoop (fun k => requestOnce (tokenResults k) (outs k)) 0 3

/-- No outcome of one `_request` call raises an exception the decorator
would retry: the `except` clauses have already translated the retryable
`httpx` exception classes away. -/
theorem requestOnce_never_retryable {α : Type}
    (tokenResult : Except PyErr String) (out : HttpResult α) (e : PyErr)
    (htok : ∀ msg, tokenResult ≠ .error .httpxTimeout ∧
      tokenResult ≠ .error (.httpxNetworkError msg)) :
    requestOnce tokenResult out = .error e → retryHttpxPred e = false := by
  intro h
  match tokenResult with
  | .error te =>
    simp only [requestOnce] at h
    have hte : te = e := Except.error.inj h
    subst hte
    cases te with
    | httpxTimeout => exact absurd rfl (htok "").1
    | httpxNetworkError m => exact absurd rfl (htok m).2
    | httpxStatusError st t2 => rfl
    | onceAuthError m => rfl
    | onceRateLimitError r m => rfl
    | onceTimeoutError m => rfl
    | onceAPIError m => rfl
    | otherExc m => rfl
    | tenacityRetryError => rfl
  | .ok tok =>
    simp only [requestOnce] at h
    match hout : tryBlockResult (α := α) out with
    | .ok v => rw [hout] at h; simp [exceptChain] at h
    | .error .httpxTimeout =>
      rw [hout] at h
      simp only [exceptChain, Except.error.injEq] at h
      rw [← h]; rfl
    | .error (.httpxStatusError st text) =>
      rw [hout] at h
      simp only [exceptChain, Except.error.injEq] at h
      rw [← h]; rfl
    | .error (.httpxNetworkError m) =>
      rw [hout] at h
      simp only [exceptChain, Except.error.injEq] at h
      rw [← h]; rfl
    | .error (.onceAuthError m) =>
      rw [hout] at h
      simp only [exceptChain, Except.error.injEq] at h
      rw [← h]; rfl
    | .error (.onceRateLimitError ra m) =>
      rw [hout] at h
      simp only [exceptChain, Except.error.injEq] at h
      rw [← h]; rfl
    | .error (.onceTimeoutError m) =>
      rw [hout] at h
      simp only [exceptChain, Except.error.injEq] at h
      rw [← h]; rfl
    | .error (.onceAPIError m) =>
      rw [hout] at h
      simp only [exceptChain, Except.error.injEq] at h
      rw [← h]; rfl
    | .error (.otherExc m) =>
      rw [hout] at h
      simp only [exceptChain, Except.error.injEq] at h
      rw [← h]; rfl
    | .error .tenacityRetryError =>
      rw [hout] at h
      simp only [exceptChain, Except.error.injEq] at h
      rw [← h]; rfl

/-- C1.  The claim requires an always-timing-out call to fail after
exactly `max_retries` (3) attempts with retries in between.  In the code
the `except` clause converts `httpx.TimeoutException` into
`OnceTimeoutError` inside the decorated function, so the decorator (which
retries only the `httpx` classes) never retries: the pipeline makes
exactly one attempt, for timeouts and network errors alike, while the same
decorator applied to the raw `httpx` exceptions would indeed stop after 3
attempts.  Non-transient HTTP error statuses are likewise not retried. -/
theorem once_request_retry_defeated :
    (onceRequest (α := Unit) (fun _ => .ok "tok") (fun _ => .timeoutExc) =
      (.error (.onceTimeoutError "Request timeout"), 1)) ∧
    (onceRequest (α := Unit) (fun _ => .ok "tok")
        (fun _ => .networkExc "All connection attempts failed") =
      (.error (.onceAPIError "Unexpected error: All connection attempts failed"), 1)) ∧
    (retryLoop (α := Unit) (fun _ => .error .httpxTimeout) 0 3 =
      (.error .tenacityRetryError, 3)) ∧
    (onceRequest (α := Unit) (fun _ => .ok "tok")
        (fun _ => .response 500 none "server error" none) =
      (.error (.onceAPIError "API error 500: server error"), 1)) ∧
    (∀ (outs : Nat → HttpResult Unit) (tok : String),
      (onceRequest (fun _ => .ok tok) outs).2 = 1) := by
  refine ⟨by decide, by decide, by decide, by decide, ?_⟩
  intro outs tok
  show (retryLoop (fun k => requestOnce (.ok tok) (outs k)) 0 3).2 = 1
  match hf : requestOnce (α := Unit) (.ok tok) (outs 0) with
  | .ok v => simp [retryLoop, hf]
  | .error e =>
    have hp := requestOnce_never_retryable (.ok tok) (outs 0) e
      (fun msg => ⟨by simp, by simp⟩) hf
    simp [retryLoop, hf, hp]

/-- C2.  The `try` block raises the distinct `OnceRateLimitError` carrying
the `Retry-After` value (60 when the header is absent), but the blanket
`except Exception` clause of the same function catches it and re-raises a
generic `OnceAPIError`, so the caller never sees the rate-limit kind; the
pipeline still performs no retry. -/
theorem once_request_429_wrapped :
    (tryBlockResult (α := Unit) (.response 429 none "Too Many Requests" none) =
      .error (.onceRateLimitError 60 "Rate limit exceeded. Retry after 60s")) ∧
    (requestOnce (α := Unit) (.ok "tok") (.response 429 none "Too Many Requests" none) =
      .error (.onceAPIError "Unexpected error: Rate limit exceeded. Retry after 60s")) ∧
    (requestOnce (α := Unit) (.ok "tok") (.response 429 (some 120) "Too Many Requests" none) =
      .error (.onceAPIError "Unexpected error: Rate limit exceeded. Retry after 120s")) ∧
    ((onceRequest (α := Unit) (fun _ => .ok "tok")
        (fun _ => .response 429 none "Too Many Requests" none)).2 = 1) := by
  refine ⟨by decide, by decide, by decide, by decide⟩

/-! ## `SIMService.sync_sim_from_once` (sync_one) -/

/-- The fields `sync_sim_from_once` reads off the carrier's SIM payload
with `.get(...)` (absent keys give `None`). -/
structure OnceSimData where
  imsi : Option String
  msisdn : Option String
  status : Option String
  ip_address : Option String
  imei : Option String
deriving Repr, DecidableEq

/-- The field assignments shared by `sync_sim_from_once` and the per-SIM
body of `sync_all_sims_from_once`: overwrite the mutable columns and stamp
`last_synced_at`. -/
def applySimFields (s : SIM) (d : OnceSimData) (now : Int) : SIM :=
  { s with
    imsi := d.imsi, msisdn := d.msisdn, status := d.status,
    ip_address := d.ip_address, imei := d.imei, last_synced_at := some now }

/-- `SIM(iccid=iccid)`: a fresh row with only the ICCID set (the id models
the autoincrement key assigned at flush). -/
def newSimRow (id : Nat) (iccid : String) : SIM :=
  { id := id, iccid := iccid, imsi := none, msisdn := none, status := none,
    label := none, ip_address := none, imei := none, organization_id := none,
    last_synced_at := none, metadata := none }

/-- `SIMService.sync_sim_from_once`: fetch the SIM from the carrier
(`resp`), get-or-create the local row, overwrite the mutable fields, stamp
`last_synced_at`, commit, and return the row; any exception — the carrier
error for an unknown ICCID included — is caught and `None` is returned
with the store unchanged. -/
def syncSimFromOnce (db : Db) (now : Int) (iccid : String)
    (resp : Except SvcError OnceSimData) : Db × Option SIM :=
  match resp with
  | .error _ => (db, none)
  | .ok d =>
    match getSimByIccid db iccid with
    | .error _ => (db, none)
    | .ok none =>
      let s := applySimFields (newSimRow db.nextSimId iccid) d now
      ({ db with sims := db.sims ++ [s], nextSimId := db.nextSimId + 1 }, some s)
    | .ok (some s0) =>
      let s := applySimFields s0 d now
      ({ db with sims := db.sims.map (fun r => if r.iccid == iccid then s else r) },
       some s)

/-- C6: `sync_one` creates exactly one new record when the ICCID is
locally unknown, otherwise updates only the mutable fields of the existing
record (identity, label, organization and metadata are untouched); in both
cases it stamps `last_synced_at = now` and returns the record; a carrier
error (the not-found case included) yields `None` with the store
unchanged. -/
theorem sync_sim_from_once_correct :
    (∀ (db : Db) (now : Int) (iccid : String) (err : SvcError),
      syncSimFromOnce db now iccid (.error err) = (db, none)) ∧
    (∀ (db : Db) (now : Int) (iccid : String) (d : OnceSimData),
      validate_iccid iccid = true →
      db.sims.filter (fun s => s.iccid == iccid) = [] →
      syncSimFromOnce db now iccid (.ok d) =
        ({ db with
            sims := db.sims ++ [applySimFields (newSimRow db.nextSimId iccid) d now],
            nextSimId := db.nextSimId + 1 },
         some (applySimFields (newSimRow db.nextSimId iccid) d now))) ∧
    (∀ (db : Db) (now : Int) (iccid : String) (d : OnceSimData) (s0 : SIM),
      validate_iccid iccid = true →
      db.sims.filter (fun s => s.iccid == iccid) = [s0] →
      syncSimFromOnce db now iccid (.ok d) =
        ({ db with
            sims := db.sims.map
              (fun r => if r.iccid == iccid then applySimFields s0 d now else r) },
         some (applySimFields s0 d now))) ∧
    (∀ (s : SIM) (d : OnceSimData) (now : Int),
      (applySimFields s d now).imsi = d.imsi ∧
      (applySimFields s d now).msisdn = d.msisdn ∧
      (applySimFields s d now).status = d.status ∧
      (applySimFields s d now).ip_address = d.ip_address ∧
      (applySimFields s d now).imei = d.imei ∧
      (applySimFields s d now).last_synced_at = some now ∧
      (applySimFields s d now).id = s.id ∧
      (applySimFields s d now).iccid = s.iccid ∧
      (applySimFields s d now).label = s.label ∧
      (applySimFields s d now).organization_id = s.organization_id ∧
      (applySimFields s d now).metadata = s.metadata) := by
  refine ⟨?_, ?_, ?_, ?_⟩
  · intro db now iccid err
    rfl
  · intro db now iccid d hv hf
    simp [syncSimFromOnce, getSimByIccid, hv, hf]
  · intro db now iccid d s0 hv hf
    simp [syncSimFromOnce, getSimByIccid, hv, hf]
  · intro s d now
    refine ⟨rfl, rfl, rfl, rfl, rfl, rfl, rfl, rfl, rfl, rfl, rfl⟩

/-- Witness for `sync_sim_from_once_correct`: the spec's example scenario —
syncing an unknown ICCID against a carrier payload with `imsi =
"310150123456789"` and `status = "active"` creates exactly one record with
that status and a non-null `last_synced_at`. -/
theorem sync_sim_from_once_witness :
    validate_iccid "8991101200003204514" = true ∧
    (⟨[], [], [], 1⟩ : Db).sims.filter
      (fun s => s.iccid == "8991101200003204514") = [] ∧
    syncSimFromOnce ⟨[], [], [], 1⟩ 1000 "8991101200003204514"
        (.ok ⟨some "310150123456789", none, some "active", none, none⟩) =
      (⟨[applySimFields (newSimRow 1 "8991101200003204514")
            ⟨some "310150123456789", none, some "active", none, none⟩ 1000],
        [], [], 2⟩,
       some (applySimFields (newSimRow 1 "8991101200003204514")
            ⟨some "310150123456789", none, some "active", none, none⟩ 1000)) :=
  ⟨by decide, by decide,
   sync_sim_from_once_correct.2.1 ⟨[], [], [], 1⟩ 1000 "8991101200003204514"
     ⟨some "310150123456789", none, some "active", none, none⟩
     (by decide) (by decide)⟩

/-! ## Background jobs (`app/tasks/sync_jobs.py`)

Each job body wraps its whole work — session creation, carrier client and
service calls — in `try/except Exception`, returning a dict either way.
The jobs are modelled over the outcome of that inner work (an `Except`
parameter: `.error` is the body raising), which is exactly the
quantification of the claim; `job_start`/`job_end` timestamps are passed
in.  Counter values mirror the dict keys of the Python result. -/

structure JobResult where
  success : Bool
  durationSeconds : Int
  counters : List (String × Int)
  errorMsg : Option String
deriving Repr, DecidableEq

/-- `sync_all_sims_job`: body is `sync_all_sims_from_once` (which
re-raises on failure); on success the synced count is reported. -/
def syncAllSimsJob (startT endT : Int) (body : Except String Nat) : JobResult :=
  match body with
  | .ok n =>
    { success := true, durationSeconds := endT - startT,
      counters := [("synced_count", (n : Int))], errorMsg := none }
  | .error e =>
    { success := false, durationSeconds := endT - startT,
      counters := [], errorMsg := some e }

/-- Per-SIM outcome inside `sync_usage_job`: `.ok true` when
`sync_sim_usage_from_once` returned a non-empty record list, `.ok false`
when it returned `[]`, `.error` when the await raised. -/
def usageSyncCounted : Except String Bool → Bool
  | .ok true => true
  | _ => false

def perSimFailed {β : Type} : Except String β → Bool
  | .error _ => true
  | _ => false

/-- `sync_usage_job`: query the active SIMs (`query = .error` models the
session or client raising), then sync usage per SIM, counting successes
and per-SIM errors without aborting the loop. -/
def syncUsageJob (startT endT : Int)
    (query : Except String (List (Except String Bool))) : JobResult :=
  match query with
  | .error e =>
    { success := false, durationSeconds := endT - startT,
      counters := [], errorMsg := some e }
  | .ok sims =>
    let tally := sims.foldl
      (fun (acc : Nat × Nat) r =>
        match r with
        | .ok true => (acc.1 + 1, acc.2)
        | .ok false => acc
        | .error _ => (acc.1, acc.2 + 1)) (0, 0)
    { success := true, durationSeconds := endT - startT,
      counters := [("total_sims", (sims.length : Int)),
                   ("synced_count", (tally.1 : Int)),
                   ("error_count", (tally.2 : Int))],
      errorMsg := none }

/-- Python `dict.get(key, default)` over the modelled quota dict (values
restricted to the numbers the job reads). -/
def qlookup (d : List (String × Int)) (k : String) (dflt : Int) : Int :=
  match d.find? (fun p => p.1 == k) with
  | some p => p.2
  | none => dflt

/-- The low-quota test of `check_quotas_job`: `if data_quota and "volume"
in data_quota`, then `percentage = remaining / total * 100 < 10` whenever
`total > 0`.  Python computes the percentage in floating point; the model
uses the exact equivalent `remaining * 10 < total`. -/
def quotaLow (d : List (String × Int)) : Bool :=
  if d.isEmpty then false
  else if (d.find? (fun p => p.1 == "volume")).isNone then false
  else
    let remaining := qlookup d "volume" 0
    let total := qlookup d "total_volume" 0
    if 0 < total then decide (remaining * 10 < total) else false

def quotaOkLow : Except String (List (String × Int)) → Bool
  | .ok d => quotaLow d
  | .error _ => false

/-- `check_quotas_job`: per active SIM, fetch the data quota (per-SIM
errors are caught and skipped) and count SIMs under the 10% threshold;
`alerts_sent` is incremented together with `low_quota_count`. -/
def checkQuotasJob (startT endT : Int)
    (query : Except String (List (Except String (List (String × Int))))) :
    JobResult :=
  match query with
  | .error e =>
    { success := false, durationSeconds := endT - startT,
      counters := [], errorMsg := some e }
  | .ok sims =>
    let low := sims.foldl
      (fun (acc : Nat) r => if quotaOkLow r then acc + 1 else acc) 0
    { success := true, durationSeconds := endT - startT,
      counters := [("total_sims", (sims.length : Int)),
                   ("low_quota_count", (low : Int)),
                   ("alerts_sent", (low : Int))],
      errorMsg := none }

/-- The deletes of `cleanup_old_data_job`: usage rows older than 90 days
and event rows older than 30 days go, everything else stays; the two
`rowcount`s are returned. -/
def cleanupOldData (db : Db) (now : Int) : Db × Nat × Nat :=
  let usageCutoff := now - 90 * 86400
  let eventCutoff := now - 30 * 86400
  let usageDeleted :=
    (db.usage.filter (fun r => decide (r.timestamp < usageCutoff))).length
  let eventsDeleted :=
    (db.events.filter (fun r => decide (r.timestamp < eventCutoff))).length
  ({ db with
      usage := db.usage.filter (fun r => !decide (r.timestamp < usageCutoff)),
      events := db.events.filter (fun r => !decide (r.timestamp < eventCutoff)) },
   usageDeleted, eventsDeleted)

/-- `cleanup_old_data_job`: session setup may raise (`setup = .error`);
otherwise the two bounded deletes run and are committed. -/
def cleanupOldDataJob (startT endT : Int) (setup : Except String Db)
    (now : Int) : JobResult × Option Db :=
  match setup with
  | .error e =>
    ({ success := false, durationSeconds := endT - startT,
       counters := [], errorMsg := some e }, none)
  | .ok db =>
    let r := cleanupOldData db now
    ({ success := true, durationSeconds := endT - startT,
       counters := [("usage_deleted", (r.2.1 : Int)),
                    ("events_deleted", (r.2.2 : Int))],
       errorMsg := none }, some r.1)

/-- Splitting a list by a predicate preserves the total length. -/
theorem length_filter_add_length_filter_not {α : Type} (p : α → Bool)
    (l : List α) :
    (l.filter p).length + (l.filter (fun a => !p a)).length = l.length := by
  induction l with
  | nil => rfl
  | cons a t ih =>
    cases hp : p a <;> simp [List.filter_cons, hp] <;> omega

/-- The incremental tallies of `sync_usage_job` count exactly the
successful and the failing per-SIM syncs. -/
theorem syncUsage_tally (sims : List (Except String Bool)) :
    ∀ a b : Nat,
      (sims.foldl
        (fun (acc : Nat × Nat) r =>
          match r with
          | .ok true => (acc.1 + 1, acc.2)
          | .ok false => acc
          | .error _ => (acc.1, acc.2 + 1)) (a, b)) =
      (a + (sims.filter usageSyncCounted).length,
       b + (sims.filter perSimFailed).length) := by
  induction sims with
  | nil => intro a b; simp
  | cons r t ih =>
    intro a b
    match r with
    | .ok true => simp [List.foldl_cons, ih, usageSyncCounted, perSimFailed,
        List.filter_cons]; omega
    | .ok false => simp [List.foldl_cons, ih, usageSyncCounted, perSimFailed,
        List.filter_cons]
    | .error m => simp [List.foldl_cons, ih, usageSyncCounted, perSimFailed,
        List.filter_cons]; omega

/-- The incremental tally of `check_quotas_job` counts exactly the SIMs
whose fetched quota is under the threshold. -/
theorem checkQuotas_tally
    (sims : List (Except String (List (String × Int)))) :
    ∀ a : Nat,
      (sims.foldl (fun (acc : Nat) r => if quotaOkLow r then acc + 1 else acc) a) =
      a + (sims.filter quotaOkLow).length := by
  induction sims with
  | nil => intro a; simp
  | cons r t ih =>
    intro a
    cases hq : quotaOkLow r <;> simp [List.foldl_cons, hq, ih, List.filter_cons]
    omega

/-- C8: each scheduled job body converts every behaviour of its inner work
— raising included — into a structured result carrying `success`,
`duration_seconds`, its counters, and an error message exactly on failure;
no exception escapes the job body. -/
theorem scheduled_jobs_structured_results :
    (∀ (s e : Int) (body : Except String Nat),
      (syncAllSimsJob s e body).durationSeconds = e - s ∧
      (syncAllSimsJob s e body).success = body.isOk ∧
      (syncAllSimsJob s e body).errorMsg =
        (match body with | .ok _ => none | .error m => some m) ∧
      (syncAllSimsJob s e body).counters =
        (match body with
          | .ok n => [("synced_count", (n : Int))]
          | .error _ => [])) ∧
    (∀ (s e : Int) (m : String),
      syncUsageJob s e (.error m) =
        { success := false, durationSeconds := e - s, counters := [],
          errorMsg := some m }) ∧
    (∀ (s e : Int) (sims : List (Except String Bool)),
      syncUsageJob s e (.ok sims) =
        { success := true, durationSeconds := e - s,
          counters := [("total_sims", (sims.length : Int)),
                       ("synced_count", ((sims.filter usageSyncCounted).length : Int)),
                       ("error_count", ((sims.filter perSimFailed).length : Int))],
          errorMsg := none }) ∧
    (∀ (s e : Int) (m : String),
      checkQuotasJob s e (.error m) =
        { success := false, durationSeconds := e - s, counters := [],
          errorMsg := some m }) ∧
    (∀ (s e : Int) (sims : List (Except String (List (String × Int)))),
      checkQuotasJob s e (.ok sims) =
        { success := true, durationSeconds := e - s,
          counters := [("total_sims", (sims.length : Int)),
                       ("low_quota_count", ((sims.filter quotaOkLow).length : Int)),
                       ("alerts_sent", ((sims.filter quotaOkLow).length : Int))],
          errorMsg := none }) ∧
    (∀ (s e : Int) (m : String) (now : Int),
      cleanupOldDataJob s e (.error m) now =
        ({ success := false, durationSeconds := e - s, counters := [],
           errorMsg := some m }, none)) ∧
    (∀ (s e : Int) (db : Db) (now : Int),
      (cleanupOldDataJob s e (.ok db) now).1.success = true ∧
      (cleanupOldDataJob s e (.ok db) now).1.durationSeconds = e - s ∧
      (cleanupOldDataJob s e (.ok db) now).1.errorMsg = none ∧
      (cleanupOldDataJob s e (.ok db) now).2 = some (cleanupOldData db now).1) := by
  refine ⟨?_, ?_, ?_, ?_, ?_, ?_, ?_⟩
  · intro s e body
    match body with
    | .ok n => exact ⟨rfl, rfl, rfl, rfl⟩
    | .error m => exact ⟨rfl, rfl, rfl, rfl⟩
  · intro s e m; rfl
  · intro s e sims
    simp only [syncUsageJob, syncUsage_tally sims 0 0, Nat.zero_add]
  · intro s e m; rfl
  · intro s e sims
    simp only [checkQuotasJob, checkQuotas_tally sims 0, Nat.zero_add]
  · intro s e m now; rfl
  · intro s e db now; exact ⟨rfl, rfl, rfl, rfl⟩

/-- C9: `cleanup_old_data_job` deletes exactly the usage rows older than
90 days and the event rows older than 30 days, leaves every other row of
those tables (and the whole `sims` table) unchanged, and reports the two
delete counts; in particular one usage row from 100 days ago is deleted
while one from today survives. -/
theorem cleanup_old_data_retention :
    (∀ (db : Db) (now : Int),
      (∀ r : SIMUsageRow,
        r ∈ (cleanupOldData db now).1.usage ↔
          (r ∈ db.usage ∧ ¬(r.timestamp < now - 90 * 86400))) ∧
      (∀ r : SIMEventRow,
        r ∈ (cleanupOldData db now).1.events ↔
          (r ∈ db.events ∧ ¬(r.timestamp < now - 30 * 86400))) ∧
      (cleanupOldData db now).1.sims = db.sims ∧
      (cleanupOldData db now).1.nextSimId = db.nextSimId ∧
      (cleanupOldData db now).2.1 + (cleanupOldData db now).1.usage.length =
        db.usage.length ∧
      (cleanupOldData db now).2.2 + (cleanupOldData db now).1.events.length =
        db.events.length) ∧
    (cleanupOldData
        ⟨[], [⟨1, "8991101200003204514", 0, 0, 0, 0, 0, 0⟩,
              ⟨1, "8991101200003204514", 8640000, 0, 0, 0, 0, 0⟩], [], 1⟩
        8640000 =
      (⟨[], [⟨1, "8991101200003204514", 8640000, 0, 0, 0, 0, 0⟩], [], 1⟩, 1, 0)) := by
  constructor
  · intro db now
    refine ⟨?_, ?_, rfl, rfl, ?_, ?_⟩
    · intro r
      simp [cleanupOldData, List.mem_filter]
    · intro r
      simp [cleanupOldData, List.mem_filter]
    · exact length_filter_add_length_filter_not
        (fun r => decide (r.timestamp < now - 90 * 86400)) db.usage
    · exact length_filter_add_length_filter_not
        (fun r => decide (r.timestamp < now - 30 * 86400)) db.events
  · decide

/-! ## `SIMService.sync_sim_usage_from_once` (sync_usage)

The function fetches the carrier usage list, looks the SIM up, then for
each entry parses the timestamp (`datetime.fromisoformat` raising on an
absent or malformed value), selects an existing row by `(iccid,
timestamp)` with `scalar_one_or_none`, updates it or `add`s a fresh one,
and finally commits once.  The session has `autoflush=False`: a `select`
never sees the rows `add`ed earlier in the same run, so the model keeps
`working` (committed rows, updated in place and visible through the
identity map) apart from `pending` (added rows, invisible to selects).
Any exception is caught: the function then returns `[]` and, the commit
never having happened, the store is unchanged. -/

/-- One element of the carrier's `usage` array, as read with `.get`.
`timestamp = none` models an absent or unparsable value (the
`fromisoformat` call then raises); counters default to 0. -/
structure OnceUsageEntry where
  timestamp : Option Int
  volume_rx : Option Int
  volume_tx : Option Int
  total_volume : Option Int
  sms_mo : Option Int
  sms_mt : Option Int
deriving Repr, DecidableEq

/-- The `where` clause `SIMUsage.iccid == iccid, SIMUsage.timestamp ==
timestamp`. -/
def usageKeyMatch (ic : String) (t : Int) (r : SIMUsageRow) : Bool :=
  r.iccid == ic && r.timestamp == t

/-- The counter assignments performed on a found-or-created usage row. -/
def applyUsageFields (r : SIMUsageRow) (e : OnceUsageEntry) : SIMUsageRow :=
  { r with
    volume_rx := e.volume_rx.getD 0, volume_tx := e.volume_tx.getD 0,
    total_volume := e.total_volume.getD 0, sms_mo := e.sms_mo.getD 0,
    sms_mt := e.sms_mt.getD 0 }

/-- `SIMUsage(sim_id=sim.id, iccid=iccid, timestamp=timestamp)`. -/
def newUsageRow (simId : Nat) (ic : String) (t : Int) : SIMUsageRow :=
  ⟨simId, ic, t, 0, 0, 0, 0, 0⟩

/-- In-session state of one usage sync run. -/
structure UsageSyncState where
  working : List SIMUsageRow
  pending : List SIMUsageRow
deriving Repr, DecidableEq

/-- The in-place update applied by the loop to the row found at a key. -/
def updAt (ic : String) (t : Int) (e : OnceUsageEntry) (r : SIMUsageRow) :
    SIMUsageRow :=
  if usageKeyMatch ic t r then applyUsageFields r e else r

/-- Processing of one usage entry inside the loop. -/
def syncUsageEntry (simId : Nat) (ic : String) (st : UsageSyncState)
    (e : OnceUsageEntry) : Except SvcError UsageSyncState :=
  match e.timestamp with
  | none => .error .valueError
  | some t =>
    match st.working.filter (usageKeyMatch ic t) with
    | [] =>
      .ok { st with
        pending := st.pending ++ [applyUsageFields (newUsageRow simId ic t) e] }
    | [_] =>
      .ok { st with working := st.working.map (updAt ic t e) }
    | _ => .error .multipleResults

/-- `SIMService.sync_sim_usage_from_once`; returns the updated store and
the length of the returned record list (0 on the caught-exception and
SIM-not-found paths). -/
def syncSimUsageFromOnce (db : Db) (iccid : String)
    (entriesResp : Except SvcError (List OnceUsageEntry)) : Db × Nat :=
  match entriesResp with
  | .error _ => (db, 0)
  | .ok entries =>
    match getSimByIccid db iccid with
    | .error _ => (db, 0)
    | .ok none => (db, 0)
    | .ok (some sim) =>
      match entries.foldlM (syncUsageEntry sim.id iccid) ⟨db.usage, []⟩ with
      | .error _ => (db, 0)
      | .ok st => ({ db with usage := st.working ++ st.pending }, entries.length)

/-- C5 counterexample.  With `autoflush=False` the select of the second
entry does not see the row added for the first, so a carrier response
holding two entries with the same timestamp inserts two rows with the same
`(iccid, timestamp)` natural key — the second entry is not an overwrite
and the result has duplicate keys, contradicting the claimed upsert. -/
theorem sync_usage_duplicate_timestamp_counterexample :
    (syncSimUsageFromOnce
        ⟨[newSimRow 1 "8991101200003204514"], [], [], 2⟩
        "8991101200003204514"
        (.ok [⟨some 0, some 1, none, none, none, none⟩,
              ⟨some 0, some 2, none, none, none, none⟩])).1.usage =
      [⟨1, "8991101200003204514", 0, 1, 0, 0, 0, 0⟩,
       ⟨1, "8991101200003204514", 0, 2, 0, 0, 0, 0⟩] ∧
    ¬ (((syncSimUsageFromOnce
        ⟨[newSimRow 1 "8991101200003204514"], [], [], 2⟩
        "8991101200003204514"
        (.ok [⟨some 0, some 1, none, none, none, none⟩,
              ⟨some 0, some 2, none, none, none, none⟩])).1.usage.map
        (fun r => (r.iccid, r.timestamp))).Nodup) := by
  exact ⟨by decide, by decide⟩

/-! ### Helper lemmas for the usage upsert -/

/-- A map that fixes every element of a list is the identity on it. -/
theorem map_eq_self_of {α : Type} (f : α → α) (l : List α)
    (h : ∀ x ∈ l, f x = x) : l.map f = l := by
  induction l with
  | nil => rfl
  | cons a t ih =>
    rw [List.map_cons, h a (List.mem_cons_self _ _),
      ih (fun x hx => h x (List.mem_cons_of_mem _ hx))]

/-- Filtering a mapped list commutes with the map when the predicate is
invariant under the function. -/
theorem filter_map_of_pred_inv {α : Type} (f : α → α) (p : α → Bool)
    (hf : ∀ a, p (f a) = p a) (l : List α) :
    (l.map f).filter p = (l.filter p).map f := by
  induction l with
  | nil => rfl
  | cons a t ih =>
    cases hp : p a with
    | true => simp [List.filter_cons, hf, hp, ih]
    | false => simp [List.filter_cons, hf, hp, ih]

theorem applyUsageFields_iccid (r : SIMUsageRow) (e : OnceUsageEntry) :
    (applyUsageFields r e).iccid = r.iccid := rfl

theorem applyUsageFields_timestamp (r : SIMUsageRow) (e : OnceUsageEntry) :
    (applyUsageFields r e).timestamp = r.timestamp := rfl

theorem applyUsageFields_idem (r : SIMUsageRow) (e : OnceUsageEntry) :
    applyUsageFields (applyUsageFields r e) e = applyUsageFields r e := rfl

theorem updAt_iccid (ic : String) (t : Int) (e : OnceUsageEntry)
    (r : SIMUsageRow) : (updAt ic t e r).iccid = r.iccid := by
  unfold updAt; split <;> rfl

theorem updAt_timestamp (ic : String) (t : Int) (e : OnceUsageEntry)
    (r : SIMUsageRow) : (updAt ic t e r).timestamp = r.timestamp := by
  unfold updAt; split <;> rfl

theorem updAt_keyMatch (ic ic2 : String) (t t2 : Int) (e : OnceUsageEntry)
    (r : SIMUsageRow) :
    usageKeyMatch ic2 t2 (updAt ic t e r) = usageKeyMatch ic2 t2 r := by
  unfold usageKeyMatch
  rw [updAt_iccid, updAt_timestamp]

/-- The `(iccid, timestamp)` key column of a usage table. -/
def keysOf (l : List SIMUsageRow) : List (String × Int) :=
  l.map (fun r => (r.iccid, r.timestamp))

theorem keysOf_map_updAt (ic : String) (t : Int) (e : OnceUsageEntry)
    (l : List SIMUsageRow) : keysOf (l.map (updAt ic t e)) = keysOf l := by
  unfold keysOf
  rw [List.map_map]
  exact List.map_congr_left
    (fun r _ => by simp [Function.comp, updAt_iccid, updAt_timestamp])

theorem usageKeyMatch_iff (ic : String) (t : Int) (r : SIMUsageRow) :
    usageKeyMatch ic t r = true ↔ (r.iccid = ic ∧ r.timestamp = t) := by
  unfold usageKeyMatch
  simp

/-- A key filter is empty exactly when the key is absent from the key
column. -/
theorem filter_key_eq_nil_iff (ic : String) (t : Int) (l : List SIMUsageRow) :
    l.filter (usageKeyMatch ic t) = [] ↔ (ic, t) ∉ keysOf l := by
  rw [List.filter_eq_nil_iff]
  unfold keysOf
  constructor
  · intro h hmem
    obtain ⟨r, hr, hkey⟩ := List.mem_map.mp hmem
    have h1 : r.iccid = ic := congrArg Prod.fst hkey
    have h2 : r.timestamp = t := congrArg Prod.snd hkey
    exact h r hr ((usageKeyMatch_iff ic t r).mpr ⟨h1, h2⟩)
  · intro h r hr hkey
    obtain ⟨h1, h2⟩ := (usageKeyMatch_iff ic t r).mp hkey
    exact h (List.mem_map.mpr ⟨r, hr, by rw [h1, h2]⟩)

/-- The timestamps of the rows of one ICCID. -/
def usageIcTs (l : List SIMUsageRow) (ic : String) : List Int :=
  (l.filter (fun r => r.iccid == ic)).map (fun r => r.timestamp)

theorem usage_filter_decomp (ic : String) (t : Int) (l : List SIMUsageRow) :
    l.filter (usageKeyMatch ic t) =
      (l.filter (fun r => r.iccid == ic)).filter (fun r => r.timestamp == t) := by
  induction l with
  | nil => rfl
  | cons r l ih =>
    by_cases h1 : r.iccid = ic
    · by_cases h2 : r.timestamp = t
      · simp [List.filter_cons, usageKeyMatch, h1, h2, ih]
      · simp [List.filter_cons, usageKeyMatch, h1, h2, ih]
    · simp [List.filter_cons, usageKeyMatch, h1, ih]

theorem usage_filter_cases (ic : String) (t : Int) (l : List SIMUsageRow)
    (h : (usageIcTs l ic).Nodup) :
    l.filter (usageKeyMatch ic t) = [] ∨
      ∃ r, l.filter (usageKeyMatch ic t) = [r] := by
  rw [usage_filter_decomp]
  unfold usageIcTs at h
  exact filter_key_cases (fun r => r.timestamp)
    (l.filter (fun r => r.iccid == ic)) t h

theorem usage_filter_singleton (ic : String) (t : Int) (l : List SIMUsageRow)
    (h : (usageIcTs l ic).Nodup) (r : SIMUsageRow) (hr : r ∈ l)
    (hm : usageKeyMatch ic t r = true) :
    l.filter (usageKeyMatch ic t) = [r] := by
  have hrmem : r ∈ l.filter (usageKeyMatch ic t) := List.mem_filter.mpr ⟨hr, hm⟩
  rcases usage_filter_cases ic t l h with h0 | ⟨s, hs⟩
  · rw [h0] at hrmem; simp at hrmem
  · rw [hs] at hrmem
    have : r = s := by simpa using hrmem
    rw [this]; exact hs

theorem usageIcTs_map_updAt (ic : String) (t : Int) (e : OnceUsageEntry)
    (l : List SIMUsageRow) :
    usageIcTs (l.map (updAt ic t e)) ic = usageIcTs l ic := by
  unfold usageIcTs
  rw [filter_map_of_pred_inv (updAt ic t e) (fun r => r.iccid == ic)
    (fun r => by simp [updAt_iccid]) l]
  rw [List.map_map]
  exact List.map_congr_left (fun r _ => by simp [Function.comp, updAt_timestamp])

/-- Specification of one usage-sync run: under distinct entry timestamps
the fold succeeds, keys of committed rows are preserved, pending rows stay
intact and disjoint from committed keys, untouched rows survive, and every
entry ends with exactly one row at its key carrying its counters. -/
theorem syncUsage_run_spec (simId : Nat) (ic : String) :
    ∀ (es : List OnceUsageEntry) (W P : List SIMUsageRow),
      (usageIcTs W ic).Nodup →
      (∀ r ∈ P, r.iccid = ic) →
      (P.map (fun r => r.timestamp)).Nodup →
      (∀ r ∈ P, W.filter (usageKeyMatch ic r.timestamp) = []) →
      (∀ e ∈ es, e.timestamp ≠ none) →
      (es.filterMap (fun e => e.timestamp)).Nodup →
      (∀ e ∈ es, ∀ t, e.timestamp = some t → ∀ r ∈ P, r.timestamp ≠ t) →
      ∃ W' P',
        List.foldlM (syncUsageEntry simId ic) (⟨W, P⟩ : UsageSyncState) es =
          .ok ⟨W', P'⟩ ∧
        usageIcTs W' ic = usageIcTs W ic ∧
        keysOf W' = keysOf W ∧
        (∀ r ∈ P, r ∈ P') ∧
        (∀ r ∈ P', r.iccid = ic) ∧
        (P'.map (fun r => r.timestamp)).Nodup ∧
        (∀ r ∈ P', W'.filter (usageKeyMatch ic r.timestamp) = []) ∧
        (∀ r ∈ W, (r.iccid = ic → ∀ e ∈ es, e.timestamp ≠ some r.timestamp) →
          r ∈ W') ∧
        (∀ e ∈ es, ∀ t, e.timestamp = some t →
          ∃ r, (W' ++ P').filter (usageKeyMatch ic t) = [r] ∧
            applyUsageFields r e = r ∧ r.iccid = ic ∧ r.timestamp = t) := by
  intro es
  induction es with
  | nil =>
    intro W P hWk hPic hPnd hPW _ _ _
    refine ⟨W, P, rfl, rfl, rfl, fun r hr => hr, hPic, hPnd, hPW,
      fun r hr _ => hr, ?_⟩
    intro e he
    simp at he
  | cons e rest ih =>
    intro W P hWk hPic hPnd hPW hts hnd hdisj
    obtain ⟨t, ht⟩ : ∃ t, e.timestamp = some t := by
      cases hcase : e.timestamp with
      | none => exact absurd hcase (hts e (List.mem_cons_self _ _))
      | some t => exact ⟨t, rfl⟩
    have hts' : ∀ e2 ∈ rest, e2.timestamp ≠ none :=
      fun e2 h2 => hts e2 (List.mem_cons_of_mem _ h2)
    have hndpair : (rest.filterMap (fun e => e.timestamp)).Nodup ∧
        ∀ e2 ∈ rest, e2.timestamp ≠ some t := by
      rw [List.filterMap_cons, ht] at hnd
      rw [List.nodup_cons] at hnd
      refine ⟨hnd.2, ?_⟩
      intro e2 h2 ht2
      exact hnd.1 (List.mem_filterMap.mpr ⟨e2, h2, ht2⟩)
    have hdisj' : ∀ e2 ∈ rest, ∀ t2, e2.timestamp = some t2 →
        ∀ r ∈ P, r.timestamp ≠ t2 :=
      fun e2 h2 => hdisj e2 (List.mem_cons_of_mem _ h2)
    rcases usage_filter_cases ic t W hWk with hfc | ⟨r1, hfc⟩
    · -- key absent from the committed rows: a fresh row goes to pending
      have hstep : syncUsageEntry simId ic ⟨W, P⟩ e =
          .ok ⟨W, P ++ [applyUsageFields (newUsageRow simId ic t) e]⟩ := by
        simp only [syncUsageEntry, ht, hfc]
      have hu_ic : (applyUsageFields (newUsageRow simId ic t) e).iccid = ic := rfl
      have hu_ts : (applyUsageFields (newUsageRow simId ic t) e).timestamp = t := rfl
      have hPic1 : ∀ r ∈ P ++ [applyUsageFields (newUsageRow simId ic t) e],
          r.iccid = ic := by
        intro r hr
        rcases List.mem_append.mp hr with h | h
        · exact hPic r h
        · have : r = applyUsageFields (newUsageRow simId ic t) e := by simpa using h
          rw [this]; exact hu_ic
      have hPnd1 : ((P ++ [applyUsageFields (newUsageRow simId ic t) e]).map
          (fun r => r.timestamp)).Nodup := by
        rw [List.map_append]
        rw [List.nodup_append]
        refine ⟨hPnd, by simp, ?_⟩
        intro x hx hy
        obtain ⟨r, hr, hrx⟩ := List.mem_map.mp hx
        have hxt : x = t := by
          simp only [List.map_cons, List.map_nil, List.mem_singleton] at hy
          rw [hy, hu_ts]
        exact hdisj e (List.mem_cons_self _ _) t ht r hr (hrx.trans hxt)
      have hPW1 : ∀ r ∈ P ++ [applyUsageFields (newUsageRow simId ic t) e],
          W.filter (usageKeyMatch ic r.timestamp) = [] := by
        intro r hr
        rcases List.mem_append.mp hr with h | h
        · exact hPW r h
        · have : r = applyUsageFields (newUsageRow simId ic t) e := by simpa using h
          rw [this, hu_ts]
          exact hfc
      have hdisj1 : ∀ e2 ∈ rest, ∀ t2, e2.timestamp = some t2 →
          ∀ r ∈ P ++ [applyUsageFields (newUsageRow simId ic t) e],
            r.timestamp ≠ t2 := by
        intro e2 h2 t2 ht2 r hr
        rcases List.mem_append.mp hr with h | h
        · exact hdisj' e2 h2 t2 ht2 r h
        · have : r = applyUsageFields (newUsageRow simId ic t) e := by simpa using h
          rw [this, hu_ts]
          intro hte
          exact hndpair.2 e2 h2 (by rw [ht2, hte])
      obtain ⟨W', P', hfold, hicts, hkeys, hPsub, hPic', hPnd', hPW', hWframe, hperE⟩ :=
        ih W (P ++ [applyUsageFields (newUsageRow simId ic t) e])
          hWk hPic1 hPnd1 hPW1 hts' hndpair.1 hdisj1
      have hPicFilter : P'.filter (fun r => r.iccid == ic) = P' :=
        List.filter_eq_self.mpr (fun r hr => by simp [hPic' r hr])
      have hP'k : (usageIcTs P' ic).Nodup := by
        unfold usageIcTs
        rw [hPicFilter]
        exact hPnd'
      refine ⟨W', P', ?_, hicts, hkeys,
        (fun r hr => hPsub r (List.mem_append_left _ hr)), hPic', hPnd', hPW', ?_, ?_⟩
      · rw [List.foldlM_cons, hstep]
        exact hfold
      · intro r hr hcond
        exact hWframe r hr (fun hic e2 h2 => hcond hic e2 (List.mem_cons_of_mem _ h2))
      · intro e2 he2 t2 ht2
        rcases List.mem_cons.mp he2 with heq | h2
        · -- the head entry: its row is the fresh pending one
          subst heq
          have ht2t : t2 = t := by rw [ht] at ht2; exact (Option.some.inj ht2).symm
          subst ht2t
          have humem : applyUsageFields (newUsageRow simId ic t2) e2 ∈ P' :=
            hPsub _ (List.mem_append_right _ (List.mem_singleton.mpr rfl))
          have hWempty : W'.filter (usageKeyMatch ic t2) = [] := by
            rw [filter_key_eq_nil_iff, hkeys, ← filter_key_eq_nil_iff]
            exact hfc
          have hPone : P'.filter (usageKeyMatch ic t2) =
              [applyUsageFields (newUsageRow simId ic t2) e2] :=
            usage_filter_singleton ic t2 P' hP'k _ humem
              ((usageKeyMatch_iff ic t2 _).mpr ⟨rfl, rfl⟩)
          refine ⟨applyUsageFields (newUsageRow simId ic t2) e2, ?_,
            applyUsageFields_idem _ _, rfl, rfl⟩
          rw [List.filter_append, hWempty, hPone, List.nil_append]
        · exact hperE e2 h2 t2 ht2
    · -- key present: the committed row is updated in place
      have hstep : syncUsageEntry simId ic ⟨W, P⟩ e =
          .ok ⟨W.map (updAt ic t e), P⟩ := by
        simp only [syncUsageEntry, ht, hfc]
      have hr1mem : r1 ∈ W ∧ usageKeyMatch ic t r1 = true := by
        have : r1 ∈ W.filter (usageKeyMatch ic t) := by
          rw [hfc]; exact List.mem_singleton.mpr rfl
        exact ⟨(List.mem_filter.mp this).1, (List.mem_filter.mp this).2⟩
      have hWk1 : (usageIcTs (W.map (updAt ic t e)) ic).Nodup := by
        rw [usageIcTs_map_updAt]; exact hWk
      have hPW1 : ∀ r ∈ P, (W.map (updAt ic t e)).filter
          (usageKeyMatch ic r.timestamp) = [] := by
        intro r hr
        rw [filter_key_eq_nil_iff, keysOf_map_updAt, ← filter_key_eq_nil_iff]
        exact hPW r hr
      obtain ⟨W', P', hfold, hicts, hkeys, hPsub, hPic', hPnd', hPW', hWframe, hperE⟩ :=
        ih (W.map (updAt ic t e)) P hWk1 hPic hPnd hPW1 hts' hndpair.1 hdisj'
      have hicts2 : usageIcTs W' ic = usageIcTs W ic := by
        rw [hicts, usageIcTs_map_updAt]
      have hkeys2 : keysOf W' = keysOf W := by
        rw [hkeys, keysOf_map_updAt]
      refine ⟨W', P', ?_, hicts2, hkeys2, hPsub, hPic', hPnd', hPW', ?_, ?_⟩
      · rw [List.foldlM_cons, hstep]
        exact hfold
      · intro r hr hcond
        have hnokey : usageKeyMatch ic t r = false := by
          cases hk : usageKeyMatch ic t r with
          | false => rfl
          | true =>
            obtain ⟨hic, hts0⟩ := (usageKeyMatch_iff ic t r).mp hk
            exact absurd (by rw [hts0]; exact ht)
              (hcond hic e (List.mem_cons_self _ _))
        have hfix : updAt ic t e r = r := by
          unfold updAt
          rw [hnokey]
          simp
        have : r ∈ W.map (updAt ic t e) := by
          rw [← hfix]
          exact List.mem_map_of_mem _ hr
        exact hWframe r this
          (fun hic e2 h2 => hcond hic e2 (List.mem_cons_of_mem _ h2))
      · intro e2 he2 t2 ht2
        rcases List.mem_cons.mp he2 with heq | h2
        · subst heq
          have ht2t : t2 = t := by rw [ht] at ht2; exact (Option.some.inj ht2).symm
          subst ht2t
          obtain ⟨hic1, hts1⟩ := (usageKeyMatch_iff ic t2 r1).mp hr1mem.2
          have hu_ic : (applyUsageFields r1 e2).iccid = ic := by
            rw [applyUsageFields_iccid]; exact hic1
          have hu_ts : (applyUsageFields r1 e2).timestamp = t2 := by
            rw [applyUsageFields_timestamp]; exact hts1
          have humem1 : applyUsageFields r1 e2 ∈ W.map (updAt ic t2 e2) := by
            have hupd : updAt ic t2 e2 r1 = applyUsageFields r1 e2 := by
              unfold updAt
              rw [hr1mem.2]
              simp
            rw [← hupd]
            exact List.mem_map_of_mem _ hr1mem.1
          have humem : applyUsageFields r1 e2 ∈ W' := by
            refine hWframe _ humem1 ?_
            intro _ e3 h3 hte
            rw [hu_ts] at hte
            exact hndpair.2 e3 h3 hte
          have hWone : W'.filter (usageKeyMatch ic t2) = [applyUsageFields r1 e2] :=
            usage_filter_singleton ic t2 W' (by rw [hicts2]; exact hWk) _ humem
              ((usageKeyMatch_iff ic t2 _).mpr ⟨hu_ic, hu_ts⟩)
          have hPempty : P'.filter (usageKeyMatch ic t2) = [] := by
            rw [List.filter_eq_nil_iff]
            intro p hp hkp
            obtain ⟨hpic, hpts⟩ := (usageKeyMatch_iff ic t2 p).mp hkp
            have hcontr := hPW' p hp
            rw [hpts, hWone] at hcontr
            exact List.noConfusion hcontr
          refine ⟨applyUsageFields r1 e2, ?_, applyUsageFields_idem _ _, hu_ic, hu_ts⟩
          rw [List.filter_append, hWone, hPempty, List.append_nil]
        · exact hperE e2 h2 t2 ht2

/-- A rerun over a table that already holds every entry's row with the
entry's counters changes nothing. -/
theorem syncUsage_rerun_fixed (simId : Nat) (ic : String) :
    ∀ (es : List OnceUsageEntry) (W2 : List SIMUsageRow),
      (∀ e ∈ es, ∀ t, e.timestamp = some t →
        ∃ r, W2.filter (usageKeyMatch ic t) = [r] ∧ applyUsageFields r e = r) →
      (∀ e ∈ es, e.timestamp ≠ none) →
      List.foldlM (syncUsageEntry simId ic) (⟨W2, []⟩ : UsageSyncState) es =
        .ok ⟨W2, []⟩ := by
  intro es
  induction es with
  | nil => intro W2 _ _; rfl
  | cons e rest ih =>
    intro W2 hes hts
    obtain ⟨t, ht⟩ : ∃ t, e.timestamp = some t := by
      cases hcase : e.timestamp with
      | none => exact absurd hcase (hts e (List.mem_cons_self _ _))
      | some t => exact ⟨t, rfl⟩
    obtain ⟨r, hfil, hfix⟩ := hes e (List.mem_cons_self _ _) t ht
    have hstep : syncUsageEntry simId ic ⟨W2, []⟩ e =
        .ok ⟨W2.map (updAt ic t e), []⟩ := by
      simp only [syncUsageEntry, ht, hfil]
    have hmapid : W2.map (updAt ic t e) = W2 := by
      apply map_eq_self_of
      intro x hx
      unfold updAt
      cases hk : usageKeyMatch ic t x with
      | false => simp
      | true =>
        have hxmem : x ∈ W2.filter (usageKeyMatch ic t) :=
          List.mem_filter.mpr ⟨hx, hk⟩
        rw [hfil] at hxmem
        have hxr : x = r := by simpa using hxmem
        simp only [if_true]
        rw [hxr]
        exact hfix
    rw [List.foldlM_cons, hstep, hmapid]
    exact ih W2 (fun e2 h2 => hes e2 (List.mem_cons_of_mem _ h2))
      (fun e2 h2 => hts e2 (List.mem_cons_of_mem _ h2))

/-- C5 (amended): for a SIM known locally, a carrier usage response whose
entries carry pairwise-distinct (parsable) timestamps is upserted by
`(iccid, timestamp)` — each entry ends with exactly one row holding its
counters, rows at other keys survive untouched, and the key column stays
duplicate-free — and a second run with the identical response leaves the
store exactly as the first left it.  (Unamended the claim fails: with
`autoflush=False` two same-timestamp entries in one response insert
duplicate rows — see the counterexample.) -/
theorem sync_usage_idempotent_upsert
    (db : Db) (ic : String) (sim : SIM) (entries : List OnceUsageEntry)
    (hsim : getSimByIccid db ic = .ok (some sim))
    (hts : ∀ e ∈ entries, e.timestamp ≠ none)
    (hnd : (entries.filterMap (fun e => e.timestamp)).Nodup)
    (hdbu : (usageIcTs db.usage ic).Nodup) :
    ∃ W P : List SIMUsageRow,
      syncSimUsageFromOnce db ic (.ok entries) =
        ({ db with usage := W ++ P }, entries.length) ∧
      (∀ e ∈ entries, ∀ t, e.timestamp = some t →
        ∃ r, (W ++ P).filter (usageKeyMatch ic t) = [r] ∧
          applyUsageFields r e = r ∧ r.iccid = ic ∧ r.timestamp = t) ∧
      (∀ r ∈ db.usage,
        (r.iccid = ic → ∀ e ∈ entries, e.timestamp ≠ some r.timestamp) →
        r ∈ W ++ P) ∧
      (usageIcTs (W ++ P) ic).Nodup ∧
      syncSimUsageFromOnce ({ db with usage := W ++ P }) ic (.ok entries) =
        ({ db with usage := W ++ P }, entries.length) := by
  obtain ⟨W', P', hfold, hicts, hkeys, _, hPic', hPnd', hPW', hWframe, hperE⟩ :=
    syncUsage_run_spec sim.id ic entries db.usage [] hdbu
      (by intro r hr; simp at hr) (by simp)
      (by intro r hr; simp at hr) hts hnd
      (by intro e he t ht r hr; simp at hr)
  have hPicFilter : P'.filter (fun r => r.iccid == ic) = P' :=
    List.filter_eq_self.mpr (fun r hr => by simp [hPic' r hr])
  have hP'k : (usageIcTs P' ic).Nodup := by
    unfold usageIcTs
    rw [hPicFilter]
    exact hPnd'
  have hW'k : (usageIcTs W' ic).Nodup := by rw [hicts]; exact hdbu
  refine ⟨W', P', ?_, hperE, ?_, ?_, ?_⟩
  · simp only [syncSimUsageFromOnce, hsim, hfold]
  · intro r hr hcond
    exact List.mem_append_left _ (hWframe r hr hcond)
  · unfold usageIcTs
    rw [List.filter_append, List.map_append]
    rw [List.nodup_append]
    refine ⟨hW'k, by rw [hPicFilter]; exact hPnd', ?_⟩
    intro x hx hy
    obtain ⟨p, hpmem, hpx⟩ := List.mem_map.mp hy
    have hp : p ∈ P' := (List.mem_filter.mp hpmem).1
    have hempty := hPW' p hp
    rw [filter_key_eq_nil_iff] at hempty
    obtain ⟨w, hwmem, hwx⟩ := List.mem_map.mp hx
    have hw : w ∈ W' := (List.mem_filter.mp hwmem).1
    have hwic : w.iccid = ic := by
      have := (List.mem_filter.mp hwmem).2
      simpa using this
    apply hempty
    have hwts : w.timestamp = p.timestamp := by rw [hwx, hpx]
    have : (w.iccid, w.timestamp) ∈ keysOf W' :=
      List.mem_map_of_mem (fun r => (r.iccid, r.timestamp)) hw
    rw [hwic, hwts] at this
    exact this
  · have hsim2 : getSimByIccid ({ db with usage := W' ++ P' }) ic =
        .ok (some sim) := hsim
    have hperE2 : ∀ e ∈ entries, ∀ t, e.timestamp = some t →
        ∃ r, (W' ++ P').filter (usageKeyMatch ic t) = [r] ∧
          applyUsageFields r e = r := by
      intro e he t ht
      obtain ⟨r, h1, h2, _, _⟩ := hperE e he t ht
      exact ⟨r, h1, h2⟩
    have hrerun := syncUsage_rerun_fixed sim.id ic entries (W' ++ P') hperE2 hts
    have hproj : ({ db with usage := W' ++ P' } : Db).usage = W' ++ P' := rfl
    simp only [syncSimUsageFromOnce, hsim2, hproj, hrerun, List.append_nil]

/-- Witness for `sync_usage_idempotent_upsert`: one concrete entry synced
into a store holding the SIM and no usage rows. -/
theorem sync_usage_idempotent_upsert_witness :
    getSimByIccid ⟨[newSimRow 1 "8991101200003204514"], [], [], 2⟩
        "8991101200003204514" =
      .ok (some (newSimRow 1 "8991101200003204514")) ∧
    (∀ e ∈ [(⟨some 0, some 5, none, none, none, none⟩ : OnceUsageEntry)],
      e.timestamp ≠ none) ∧
    (([(⟨some 0, some 5, none, none, none, none⟩ : OnceUsageEntry)].filterMap
      (fun e => e.timestamp)).Nodup) ∧
    (usageIcTs (⟨[newSimRow 1 "8991101200003204514"], [], [], 2⟩ : Db).usage
      "8991101200003204514").Nodup ∧
    ∃ W P : List SIMUsageRow,
      syncSimUsageFromOnce ⟨[newSimRow 1 "8991101200003204514"], [], [], 2⟩
          "8991101200003204514"
          (.ok [(⟨some 0, some 5, none, none, none, none⟩ : OnceUsageEntry)]) =
        ({ (⟨[newSimRow 1 "8991101200003204514"], [], [], 2⟩ : Db) with
            usage := W ++ P },
         [(⟨some 0, some 5, none, none, none, none⟩ : OnceUsageEntry)].length) ∧
      (∀ e ∈ [(⟨some 0, some 5, none, none, none, none⟩ : OnceUsageEntry)],
        ∀ t, e.timestamp = some t →
        ∃ r, (W ++ P).filter (usageKeyMatch "8991101200003204514" t) = [r] ∧
          applyUsageFields r e = r ∧ r.iccid = "8991101200003204514" ∧
          r.timestamp = t) ∧
      (∀ r ∈ (⟨[newSimRow 1 "8991101200003204514"], [], [], 2⟩ : Db).usage,
        (r.iccid = "8991101200003204514" →
          ∀ e ∈ [(⟨some 0, some 5, none, none, none, none⟩ : OnceUsageEntry)],
            e.timestamp ≠ some r.timestamp) →
        r ∈ W ++ P) ∧
      (usageIcTs (W ++ P) "8991101200003204514").Nodup ∧
      syncSimUsageFromOnce
          ({ (⟨[newSimRow 1 "8991101200003204514"], [], [], 2⟩ : Db) with
              usage := W ++ P })
          "8991101200003204514"
          (.ok [(⟨some 0, some 5, none, none, none, none⟩ : OnceUsageEntry)]) =
        ({ (⟨[newSimRow 1 "8991101200003204514"], [], [], 2⟩ : Db) with
            usage := W ++ P },
         [(⟨some 0, some 5, none, none, none, none⟩ : OnceUsageEntry)].length) :=
  ⟨by decide, by decide, by decide, by decide,
   sync_usage_idempotent_upsert
     ⟨[newSimRow 1 "8991101200003204514"], [], [], 2⟩ "8991101200003204514"
     (newSimRow 1 "8991101200003204514")
     [(⟨some 0, some 5, none, none, none, none⟩ : OnceUsageEntry)]
     (by decide) (by decide) (by decide) (by decide)⟩

/-! ## `SIMService.sync_all_sims_from_once` (sync_all)

The loop requests page 1, 2, ... with `page_size=100`, stops on an empty
page before processing it, otherwise upserts every listed SIM carrying a
truthy `iccid` (as in `sync_one`: same field assignments), and stops after
the first page shorter than 100; a single commit runs at the end.  Like
the usage sync, selects do not see rows `add`ed in the same run
(`autoflush=False`); the commit enforces the UNIQUE constraint on
`sims.iccid`.  Any exception — a `ValueError` from `get_sim_by_iccid` on a
malformed listed ICCID included — is logged and re-raised. -/

/-- One element of a carrier SIM listing. -/
structure OnceSimEntry where
  iccid : Option String
  imsi : Option String
  msisdn : Option String
  status : Option String
  ip_address : Option String
  imei : Option String
deriving Repr, DecidableEq

def entryData (en : OnceSimEntry) : OnceSimData :=
  ⟨en.imsi, en.msisdn, en.status, en.ip_address, en.imei⟩

/-- `iccid = sim_data.get("iccid"); if not iccid: continue` — an absent or
empty ICCID is skipped. -/
def entryIccid (en : OnceSimEntry) : Option String :=
  match en.iccid with
  | none => none
  | some ic => if ic = "" then none else some ic

/-- In-session state of one sync-all run. -/
structure SyncAllState where
  working : List SIM
  pending : List SIM
  nextId : Nat
  count : Nat
deriving Repr, DecidableEq

inductive SyncAllError
  | svc (e : SvcError)
  | fuelOut
deriving Repr, DecidableEq

/-- Processing of one listed SIM inside the loop. -/
def syncAllEntry (now : Int) (st : SyncAllState) (en : OnceSimEntry) :
    Except SvcError SyncAllState :=
  match entryIccid en with
  | none => .ok st
  | some ic =>
    if validate_iccid ic = false then .error .valueError
    else
      match st.working.filter (fun s => s.iccid == ic) with
      | [] =>
        .ok { st with
          pending := st.pending ++
            [applySimFields (newSimRow st.nextId ic) (entryData en) now],
          nextId := st.nextId + 1,
          count := st.count + 1 }
      | [s0] =>
        .ok { st with
          working := st.working.map
            (fun s => if s.iccid == ic then applySimFields s0 (entryData en) now else s),
          count := st.count + 1 }
      | _ => .error .multipleResults

/-- The paging loop; `fuel` bounds the number of pages requested
(`.error .fuelOut` models the loop not terminating, which never happens
once a short page exists within `fuel`).  The returned list records the
page numbers requested from the carrier, in order. -/
def syncAllLoop (pages : Nat → List OnceSimEntry) (now : Int) :
    Nat → Nat → SyncAllState → List Nat →
      Except SyncAllError (SyncAllState × List Nat)
  | 0, _, _, _ => .error .fuelOut
  | fuel + 1, page, st, visited =>
    if pages page = [] then .ok (st, visited ++ [page])
    else
      match (pages page).foldlM (syncAllEntry now) st with
      | .error e => .error (.svc e)
      | .ok st1 =>
        if (pages page).length < 100 then .ok (st1, visited ++ [page])
        else syncAllLoop pages now fuel (page + 1) st1 (visited ++ [page])

/-- `SIMService.sync_all_sims_from_once`: run the paging loop from page 1,
then commit once; the commit raises `IntegrityError` when the UNIQUE
constraint on `sims.iccid` is violated by the pending inserts.  Returns
the updated store, the synced count and the requested page numbers. -/
def syncAllSimsFromOnce (db : Db) (now : Int)
    (pages : Nat → List OnceSimEntry) (fuel : Nat) :
    Except SyncAllError (Db × Nat × List Nat) :=
  match syncAllLoop pages now fuel 1 ⟨db.sims, [], db.nextSimId, 0⟩ [] with
  | .error e => .error e
  | .ok (st, visited) =>
    if ((st.working ++ st.pending).map (fun s => s.iccid)).Nodup then
      .ok ({ db with sims := st.working ++ st.pending, nextSimId := st.nextId },
           st.count, visited)
    else .error (.svc .integrityError)

/-- C7 counterexample.  The claim quantifies over every carrier SIM
listing, but a listing whose entry carries a malformed ICCID makes
`get_sim_by_iccid` raise `ValueError`, which `sync_all_sims_from_once`
re-raises: nothing is upserted and no count is returned. -/
theorem sync_all_invalid_iccid_counterexample :
    syncAllSimsFromOnce ⟨[], [], [], 1⟩ 0
      (fun p => if p = 1 then [⟨some "abc", none, none, none, none, none⟩] else [])
      10 = .error (.svc .valueError) := by
  decide

/-- Reference description, following the spec's words: "upserting each SIM
as in `sync_one`" — each listed SIM with a truthy ICCID is upserted into
the one sims table by ICCID, with the same field assignments `sync_one`
performs. -/
def upsertSimSpec (now : Int) (p : List SIM × Nat) (en : OnceSimEntry) :
    List SIM × Nat :=
  match entryIccid en with
  | none => p
  | some ic =>
    match p.1.filter (fun s => s.iccid == ic) with
    | [] => (p.1 ++ [applySimFields (newSimRow p.2 ic) (entryData en) now], p.2 + 1)
    | s0 :: _ =>
      (p.1.map (fun s => if s.iccid == ic then applySimFields s0 (entryData en) now else s),
       p.2)

def upsertSimsSpec (now : Int) (sims : List SIM) (nextId : Nat)
    (ens : List OnceSimEntry) : List SIM × Nat :=
  ens.foldl (upsertSimSpec now) (sims, nextId)

/-- The per-run fold of `sync_all` refines the one-table reference upsert
when the listed ICCIDs are valid and pairwise distinct: the split
working/pending session state recombines to the reference result, working
ICCIDs are unchanged, pending rows are new distinct ICCIDs, and the count
tallies the truthy listed ICCIDs. -/
theorem syncAll_fold_spec (now : Int) :
    ∀ (ens : List OnceSimEntry) (st : SyncAllState),
      ((st.working.map (fun s => s.iccid)).Nodup) →
      (∀ s ∈ st.pending, ∀ w ∈ st.working, w.iccid ≠ s.iccid) →
      ((st.pending.map (fun s => s.iccid)).Nodup) →
      (∀ en ∈ ens, ∀ ic, entryIccid en = some ic → validate_iccid ic = true) →
      ((ens.filterMap entryIccid).Nodup) →
      (∀ en ∈ ens, ∀ ic, entryIccid en = some ic → ∀ s ∈ st.pending, s.iccid ≠ ic) →
      ∃ st' : SyncAllState,
        ens.foldlM (syncAllEntry now) st = .ok st' ∧
        upsertSimsSpec now (st.working ++ st.pending) st.nextId ens =
          (st'.working ++ st'.pending, st'.nextId) ∧
        (st'.working.map (fun s => s.iccid)) = (st.working.map (fun s => s.iccid)) ∧
        (∀ s ∈ st'.pending, ∀ w ∈ st'.working, w.iccid ≠ s.iccid) ∧
        ((st'.pending.map (fun s => s.iccid)).Nodup) ∧
        st'.count = st.count + (ens.filterMap entryIccid).length := by
  intro ens
  induction ens with
  | nil =>
    intro st hWnd hdisj hPnd _ _ _
    exact ⟨st, rfl, rfl, rfl, hdisj, hPnd, by simp⟩
  | cons en rest ih =>
    intro st hWnd hdisj hPnd hval hnd hnew
    obtain ⟨working, pending, nextId, count⟩ := st
    simp only at hWnd hdisj hPnd hnew
    cases hic : entryIccid en with
    | none =>
      -- skipped entry: neither side changes
      have hstep : syncAllEntry now ⟨working, pending, nextId, count⟩ en =
          .ok ⟨working, pending, nextId, count⟩ := by
        simp only [syncAllEntry, hic]
      obtain ⟨st', hfold, hspec, hWcol, hdisj', hPnd', hcount⟩ :=
        ih ⟨working, pending, nextId, count⟩ hWnd hdisj hPnd
          (fun e2 h2 => hval e2 (List.mem_cons_of_mem _ h2))
          (by rw [List.filterMap_cons, hic] at hnd; exact hnd)
          (fun e2 h2 => hnew e2 (List.mem_cons_of_mem _ h2))
      refine ⟨st', ?_, ?_, hWcol, hdisj', hPnd', ?_⟩
      · rw [List.foldlM_cons, hstep]; exact hfold
      · unfold upsertSimsSpec
        rw [List.foldl_cons]
        show List.foldl (upsertSimSpec now)
          (upsertSimSpec now (working ++ pending, nextId) en) rest = _
        rw [show upsertSimSpec now (working ++ pending, nextId) en =
            (working ++ pending, nextId) by simp [upsertSimSpec, hic]]
        exact hspec
      · simp only [List.filterMap_cons, hic]
        simp only at hcount
        exact hcount
    | some ic =>
      have hvic : validate_iccid ic = true :=
        hval en (List.mem_cons_self _ _) ic hic
      have hndrest : (rest.filterMap entryIccid).Nodup ∧
          ic ∉ rest.filterMap entryIccid := by
        rw [List.filterMap_cons, hic, List.nodup_cons] at hnd
        exact ⟨hnd.2, hnd.1⟩
      have hpendic : ∀ s ∈ pending, s.iccid ≠ ic :=
        fun s hs => hnew en (List.mem_cons_self _ _) ic hic s hs
      have hpfilter : pending.filter (fun s => s.iccid == ic) = [] := by
        rw [List.filter_eq_nil_iff]
        intro s hs hbe
        exact hpendic s hs (by simpa using hbe)
      rcases filter_key_cases (fun s : SIM => s.iccid) working ic hWnd with
        hwf | ⟨s0, hwf⟩
      · -- the ICCID is new: the row goes to pending on both sides
        have hstep : syncAllEntry now ⟨working, pending, nextId, count⟩ en =
            .ok ⟨working,
              pending ++ [applySimFields (newSimRow nextId ic) (entryData en) now],
              nextId + 1, count + 1⟩ := by
          simp only [syncAllEntry, hic, hvic, Bool.true_eq_false, if_false, hwf]
        have hnewic :
            (applySimFields (newSimRow nextId ic) (entryData en) now).iccid = ic := rfl
        have hwic : ∀ w ∈ working, w.iccid ≠ ic := by
          intro w hw hwe
          have : w ∈ working.filter (fun s => s.iccid == ic) :=
            List.mem_filter.mpr ⟨hw, by simp [hwe]⟩
          rw [hwf] at this
          simp at this
        have hdisj1 : ∀ s ∈ pending ++
            [applySimFields (newSimRow nextId ic) (entryData en) now],
            ∀ w ∈ working, w.iccid ≠ s.iccid := by
          intro s hs w hw
          rcases List.mem_append.mp hs with h | h
          · exact hdisj s h w hw
          · have : s = applySimFields (newSimRow nextId ic) (entryData en) now := by
              simpa using h
            rw [this, hnewic]
            exact hwic w hw
        have hPnd1 : ((pending ++
            [applySimFields (newSimRow nextId ic) (entryData en) now]).map
              (fun s => s.iccid)).Nodup := by
          rw [List.map_append, List.nodup_append]
          refine ⟨hPnd, by simp, ?_⟩
          intro x hx hy
          obtain ⟨s, hs, hsx⟩ := List.mem_map.mp hx
          have hxic : x = ic := by
            simp only [List.map_cons, List.map_nil, List.mem_singleton] at hy
            rw [hy, hnewic]
          exact hpendic s hs (hsx.trans hxic)
        have hnew1 : ∀ e2 ∈ rest, ∀ ic2, entryIccid e2 = some ic2 →
            ∀ s ∈ pending ++
              [applySimFields (newSimRow nextId ic) (entryData en) now],
              s.iccid ≠ ic2 := by
          intro e2 h2 ic2 hic2 s hs
          rcases List.mem_append.mp hs with h | h
          · exact hnew e2 (List.mem_cons_of_mem _ h2) ic2 hic2 s h
          · have : s = applySimFields (newSimRow nextId ic) (entryData en) now := by
              simpa using h
            rw [this, hnewic]
            intro hicc
            exact hndrest.2 (hicc ▸ List.mem_filterMap.mpr ⟨e2, h2, hic2⟩)
        obtain ⟨st', hfold, hspec, hWcol, hdisj', hPnd', hcount⟩ :=
          ih ⟨working,
            pending ++ [applySimFields (newSimRow nextId ic) (entryData en) now],
            nextId + 1, count + 1⟩ hWnd hdisj1 hPnd1
            (fun e2 h2 => hval e2 (List.mem_cons_of_mem _ h2))
            hndrest.1 hnew1
        refine ⟨st', ?_, ?_, hWcol, hdisj', hPnd', ?_⟩
        · rw [List.foldlM_cons, hstep]; exact hfold
        · unfold upsertSimsSpec
          rw [List.foldl_cons]
          have hone : upsertSimSpec now (working ++ pending, nextId) en =
              (working ++
                (pending ++ [applySimFields (newSimRow nextId ic) (entryData en) now]),
               nextId + 1) := by
            simp only [upsertSimSpec, hic, List.filter_append, hwf, hpfilter,
              List.append_nil, List.append_assoc]
          rw [hone]
          exact hspec
        · simp only [List.filterMap_cons, hic, List.length_cons]
          simp only at hcount
          omega
      · -- the ICCID already has a committed row: update in place
        have hs0 : s0 ∈ working ∧ s0.iccid = ic := by
          have : s0 ∈ working.filter (fun s => s.iccid == ic) := by
            rw [hwf]; exact List.mem_singleton.mpr rfl
          exact ⟨(List.mem_filter.mp this).1,
            by have := (List.mem_filter.mp this).2; simpa using this⟩
        have hstep : syncAllEntry now ⟨working, pending, nextId, count⟩ en =
            .ok ⟨working.map
              (fun s => if s.iccid == ic then applySimFields s0 (entryData en) now else s),
              pending, nextId, count + 1⟩ := by
          simp only [syncAllEntry, hic, hvic, Bool.true_eq_false, if_false, hwf]
        have hWcol1 : ((working.map
            (fun s => if s.iccid == ic then applySimFields s0 (entryData en) now else s)).map
              (fun s => s.iccid)) = working.map (fun s => s.iccid) := by
          rw [List.map_map]
          refine List.map_congr_left ?_
          intro s hs
          simp only [Function.comp]
          by_cases hsi : s.iccid = ic
          · rw [if_pos (by simp [hsi])]
            show (applySimFields s0 (entryData en) now).iccid = s.iccid
            have : (applySimFields s0 (entryData en) now).iccid = s0.iccid := rfl
            rw [this, hs0.2, hsi]
          · rw [if_neg (by simp [hsi])]
        have hWnd1 : (((working.map
            (fun s => if s.iccid == ic then applySimFields s0 (entryData en) now else s)).map
              (fun s => s.iccid))).Nodup := by
          rw [hWcol1]; exact hWnd
        have hdisj1 : ∀ s ∈ pending, ∀ w ∈ working.map
            (fun s => if s.iccid == ic then applySimFields s0 (entryData en) now else s),
            w.iccid ≠ s.iccid := by
          intro s hs w hw
          obtain ⟨w0, hw0, hw0e⟩ := List.mem_map.mp hw
          have hcol : w.iccid = w0.iccid := by
            rw [← hw0e]
            by_cases hsi : w0.iccid = ic
            · rw [if_pos (by simp [hsi])]
              show (applySimFields s0 (entryData en) now).iccid = w0.iccid
              have : (applySimFields s0 (entryData en) now).iccid = s0.iccid := rfl
              rw [this, hs0.2, hsi]
            · rw [if_neg (by simp [hsi])]
          rw [hcol]
          exact hdisj s hs w0 hw0
        obtain ⟨st', hfold, hspec, hWcol, hdisj', hPnd', hcount⟩ :=
          ih ⟨working.map
            (fun s => if s.iccid == ic then applySimFields s0 (entryData en) now else s),
            pending, nextId, count + 1⟩ hWnd1 hdisj1 hPnd
            (fun e2 h2 => hval e2 (List.mem_cons_of_mem _ h2))
            hndrest.1
            (fun e2 h2 => hnew e2 (List.mem_cons_of_mem _ h2))
        refine ⟨st', ?_, ?_, by rw [hWcol]; exact hWcol1, hdisj', hPnd', ?_⟩
        · rw [List.foldlM_cons, hstep]; exact hfold
        · unfold upsertSimsSpec
          rw [List.foldl_cons]
          have hpmap : pending.map
              (fun s => if s.iccid == ic then applySimFields s0 (entryData en) now else s) =
              pending := by
            apply map_eq_self_of
            intro s hs
            rw [if_neg (by simp [hpendic s hs])]
          have hone : upsertSimSpec now (working ++ pending, nextId) en =
              (working.map
                (fun s => if s.iccid == ic then applySimFields s0 (entryData en) now else s)
                ++ pending, nextId) := by
            simp only [upsertSimSpec, hic, List.filter_append, hwf, hpfilter,
              List.append_nil, List.map_append, hpmap]
          rw [hone]
          exact hspec
        · simp only [List.filterMap_cons, hic, List.length_cons]
          simp only at hcount
          omega

/-- The paging loop visits pages `p, p+1, ..., k` exactly when `k` is the
first short page, and computes the fold over the concatenated listing. -/
theorem syncAllLoop_eq (pages : Nat → List OnceSimEntry) (now : Int) (k : Nat)
    (hshort : (pages k).length < 100) :
    ∀ (n p fuel : Nat) (st st' : SyncAllState) (visited : List Nat),
      k = p + n →
      n + 1 ≤ fuel →
      (∀ j, p ≤ j → j < k → 100 ≤ (pages j).length) →
      List.foldlM (syncAllEntry now) st ((List.range' p (n + 1)).flatMap pages) =
        .ok st' →
      syncAllLoop pages now fuel p st visited =
        .ok (st', visited ++ List.range' p (n + 1)) := by
  intro n
  induction n with
  | zero =>
    intro p fuel st st' visited hkp hfuel hfull hfold
    have hpk : p = k := by omega
    subst hpk
    obtain ⟨f, rfl⟩ : ∃ f, fuel = f + 1 := ⟨fuel - 1, by omega⟩
    have hflat : (List.range' p 1).flatMap pages = pages p := by
      simp [List.range'_one]
    rw [hflat] at hfold
    unfold syncAllLoop
    by_cases hemp : pages p = []
    · rw [if_pos hemp]
      have hst : st' = st := by
        rw [hemp] at hfold
        exact (Except.ok.inj hfold).symm
      rw [hst, List.range'_one]
    · rw [if_neg hemp]
      simp only [hfold]
      rw [if_pos hshort, List.range'_one]
  | succ n ih =>
    intro p fuel st st' visited hkp hfuel hfull hfold
    obtain ⟨f, rfl⟩ : ∃ f, fuel = f + 1 := ⟨fuel - 1, by omega⟩
    have hplt : p < k := by omega
    have hlen : 100 ≤ (pages p).length := hfull p (le_refl p) hplt
    have hemp : ¬(pages p = []) := by
      intro h
      rw [h] at hlen
      simp at hlen
    have hflat : (List.range' p (n + 1 + 1)).flatMap pages =
        pages p ++ (List.range' (p + 1) (n + 1)).flatMap pages := by
      rw [List.range'_succ, List.flatMap_cons]
    rw [hflat, List.foldlM_append] at hfold
    match hfold1 : (pages p).foldlM (syncAllEntry now) st with
    | .error e =>
      rw [hfold1] at hfold
      exact Except.noConfusion hfold
    | .ok st1 =>
      rw [hfold1] at hfold
      have hrest : List.foldlM (syncAllEntry now) st1
          ((List.range' (p + 1) (n + 1)).flatMap pages) = .ok st' := hfold
      unfold syncAllLoop
      rw [if_neg hemp]
      simp only [hfold1]
      rw [if_neg (by omega)]
      rw [ih (p + 1) f st1 st' (visited ++ [p]) (by omega) (by omega)
        (fun j hj1 hj2 => hfull j (by omega) hj2) hrest]
      conv_rhs => rw [List.range'_succ]
      rw [List.append_assoc, List.singleton_append]

/-- C7 (amended): when every listed SIM bears a valid-format ICCID and the
truthy listed ICCIDs are pairwise distinct, `sync_all_sims_from_once`
requests successive pages of fixed size 100 starting from page 1, stops
exactly after the first page shorter than 100 items (an empty page
included), upserts each listed SIM by ICCID exactly as the one-table
reference upsert (`upsertSimsSpec`, the per-SIM assignments of
`sync_one`), and returns the count of listed SIMs processed. -/
theorem sync_all_pagination_upsert
    (db : Db) (now : Int) (pages : Nat → List OnceSimEntry) (fuel k : Nat)
    (hk : 1 ≤ k) (hfuel : k ≤ fuel)
    (hshort : (pages k).length < 100)
    (hfull : ∀ j, 1 ≤ j → j < k → 100 ≤ (pages j).length)
    (hvalid : ∀ en ∈ (List.range' 1 k).flatMap pages, ∀ ic,
      entryIccid en = some ic → validate_iccid ic = true)
    (hdistinct : (((List.range' 1 k).flatMap pages).filterMap entryIccid).Nodup)
    (hdb : (db.sims.map (fun s => s.iccid)).Nodup) :
    syncAllSimsFromOnce db now pages fuel =
      .ok ({ db with
          sims := (upsertSimsSpec now db.sims db.nextSimId
            ((List.range' 1 k).flatMap pages)).1,
          nextSimId := (upsertSimsSpec now db.sims db.nextSimId
            ((List.range' 1 k).flatMap pages)).2 },
        (((List.range' 1 k).flatMap pages).filterMap entryIccid).length,
        List.range' 1 k) := by
  obtain ⟨n, rfl⟩ : ∃ n, k = n + 1 := ⟨k - 1, by omega⟩
  obtain ⟨st', hfold, hspec, hWcol, hdisj', hPnd', hcount⟩ :=
    syncAll_fold_spec now ((List.range' 1 (n + 1)).flatMap pages)
      ⟨db.sims, [], db.nextSimId, 0⟩ hdb
      (by intro s hs; simp at hs) (by simp) hvalid hdistinct
      (by intro en hen ic hic s hs; simp at hs)
  have hloop := syncAllLoop_eq pages now (n + 1) hshort n 1 fuel
    ⟨db.sims, [], db.nextSimId, 0⟩ st' [] (by omega) (by omega)
    (fun j hj1 hj2 => hfull j hj1 hj2) hfold
  have hnil : db.sims ++ ([] : List SIM) = db.sims := List.append_nil _
  have hspec2 : upsertSimsSpec now db.sims db.nextSimId
      ((List.range' 1 (n + 1)).flatMap pages) =
      (st'.working ++ st'.pending, st'.nextId) := by
    rw [← hnil]
    exact hspec
  have hun : ((st'.working ++ st'.pending).map (fun s => s.iccid)).Nodup := by
    rw [List.map_append, List.nodup_append]
    refine ⟨by rw [hWcol]; exact hdb, hPnd', ?_⟩
    intro x hx hy
    obtain ⟨w, hw, hwx⟩ := List.mem_map.mp hx
    obtain ⟨s, hs, hsx⟩ := List.mem_map.mp hy
    exact hdisj' s hs w hw (hwx.trans hsx.symm)
  have hcount2 : st'.count =
      (((List.range' 1 (n + 1)).flatMap pages).filterMap entryIccid).length := by
    simp only at hcount
    omega
  unfold syncAllSimsFromOnce
  simp only [hloop]
  rw [if_pos hun]
  rw [hspec2, hcount2]
  rfl

/-- Witness for `sync_all_pagination_upsert`: a single-page listing of one
valid SIM against an empty store — page 1 is requested, it is short, the
SIM is upserted and the count is 1. -/
theorem sync_all_pagination_upsert_witness :
    ((fun p => if p = 1
        then [(⟨some "8991101200003204514", none, some "active", none, none, none⟩ :
          OnceSimEntry)]
        else []) 1).length < 100 ∧
    (((List.range' 1 1).flatMap (fun p => if p = 1
        then [(⟨some "8991101200003204514", none, some "active", none, none, none⟩ :
          OnceSimEntry)]
        else [])).filterMap entryIccid).Nodup ∧
    syncAllSimsFromOnce ⟨[], [], [], 1⟩ 0
        (fun p => if p = 1
          then [(⟨some "8991101200003204514", none, some "active", none, none, none⟩ :
            OnceSimEntry)]
          else []) 2 =
      .ok ({ (⟨[], [], [], 1⟩ : Db) with
          sims := (upsertSimsSpec 0 [] 1 ((List.range' 1 1).flatMap
            (fun p => if p = 1
              then [(⟨some "8991101200003204514", none, some "active", none, none, none⟩ :
                OnceSimEntry)]
              else []))).1,
          nextSimId := (upsertSimsSpec 0 [] 1 ((List.range' 1 1).flatMap
            (fun p => if p = 1
              then [(⟨some "8991101200003204514", none, some "active", none, none, none⟩ :
                OnceSimEntry)]
              else []))).2 },
        (((List.range' 1 1).flatMap (fun p => if p = 1
            then [(⟨some "8991101200003204514", none, some "active", none, none, none⟩ :
              OnceSimEntry)]
            else [])).filterMap entryIccid).length,
        List.range' 1 1) := by
  refine ⟨by decide, by decide, ?_⟩
  exact sync_all_pagination_upsert ⟨[], [], [], 1⟩ 0
    (fun p => if p = 1
      then [(⟨some "8991101200003204514", none, some "active", none, none, none⟩ :
        OnceSimEntry)]
      else []) 2 1 (by decide) (by decide) (by decide)
    (by intro j h1 h2; omega)
    (by
      intro en hen ic hic
      have hlist : ((List.range' 1 1).flatMap (fun p => if p = 1
          then [(⟨some "8991101200003204514", none, some "active", none, none, none⟩ :
            OnceSimEntry)]
          else [])) =
          [(⟨some "8991101200003204514", none, some "active", none, none, none⟩ :
            OnceSimEntry)] := by decide
      rw [hlist] at hen
      have hen2 : en =
          (⟨some "8991101200003204514", none, some "active", none, none, none⟩ :
            OnceSimEntry) := by
        simpa using hen
      subst hen2
      have hicv : entryIccid
          (⟨some "8991101200003204514", none, some "active", none, none, none⟩ :
            OnceSimEntry) = some "8991101200003204514" := by decide
      rw [hicv] at hic
      rw [← Option.some.inj hic]
      decide)
    (by decide) (by decide)

end SimPlatform
